import Mathlib

/-!
# MobiAdvisor Query Orchestration Engine — verification development

A shallow embedding, in Lean 4, of the decision logic of the MobiAdvisor
phone-shopping assistant:

* `src/lib/ai/query-processor.ts` — the `QueryProcessor` class
  (`process`, `classifyError`, `getFallbackResults`,
  `generateFallbackMessage`, `isFollowUpQuery`, `isBestPhoneQuery`,
  `getPhonesFromHistory`, `applyCorrections`, `mergeFilters`,
  `inferCompanyFromModel`, `processMultiBrand`, `processMultiModel`,
  `processSingleQuery`);
* `src/lib/ai/llm-client.ts` — `parseIntent`, `normalizeIntent`,
  `generateSQL`, `summarize`, `getUniquePhones`;
* `src/lib/vector/vector-client.ts` — `fallbackSimilar`,
  `stringSimilarity`, `levenshteinDistance`;
* `src/lib/db/database.ts` — `getFilteredPhones`, `searchPhonesByModel`.

External collaborators (the OpenAI generation service, the Pinecone index,
the SQLite store and JavaScript's built-in `JSON.parse`) are modelled as
oracle parameters: each call site receives an `Except String` result,
`Except.error` standing for a thrown exception.  TypeScript `number`s are
modelled as `ℚ` (catalog data holds no NaN/Infinity), optional fields as
`Option`, and JavaScript truthiness is made explicit (`0`, `""`,
`undefined` are falsy; note that an empty *array* is truthy).
JavaScript's `Array.prototype.sort` (stable since ES2019) is modelled by
the stable `List.insertionSort`.
-/

namespace MobiAdvisor

/-! ## JavaScript string primitives -/

/-- `String.prototype.toLowerCase` restricted to the ASCII range used by
the code (`Char.toLower` lowers exactly the ASCII letters). -/
def lowerStr (s : String) : String := String.mk (s.data.map Char.toLower)

/-- `String.prototype.toUpperCase` restricted to the ASCII range. -/
def upperStr (s : String) : String := String.mk (s.data.map Char.toUpper)

/-- Substring containment on character lists (`String.prototype.includes`). -/
def listContains : List Char → List Char → Bool
  | hay, needle =>
    if needle.isPrefixOf hay then true
    else
      match hay with
      | [] => false
      | _ :: t => listContains t needle

/-- `String.prototype.includes`. -/
def jsIncludes (s sub : String) : Bool := listContains s.data sub.data

theorem listContains_append_right (xs ys needle : List Char)
    (h : listContains ys needle = true) :
    listContains (xs ++ ys) needle = true := by
  induction xs with
  | nil => simpa using h
  | cons x xt ih =>
    show (if needle.isPrefixOf (x :: (xt ++ ys)) then true
      else listContains (xt ++ ys) needle) = true
    split
    · rfl
    · exact ih

/-- `String.prototype.startsWith`. -/
def startsWithS (s p : String) : Bool := p.data.isPrefixOf s.data

/-- `String.prototype.endsWith`. -/
def endsWithS (s p : String) : Bool := p.data.isSuffixOf s.data

/-- `String.prototype.slice(n)` for `n ≥ 0`. -/
def dropN (s : String) (n : ℕ) : String := String.mk (s.data.drop n)

/-- `String.prototype.slice(0, -n)` for `n ≥ 0`. -/
def dropLastN (s : String) (n : ℕ) : String := String.mk (s.data.take (s.data.length - n))

/-- `String.prototype.trim`. -/
def jsTrim (s : String) : String :=
  String.mk (((s.data.dropWhile Char.isWhitespace).reverse.dropWhile Char.isWhitespace).reverse)

/-- Worker for `splitWs`: `inSep` records whether the previous character was
part of a whitespace run already split on. -/
def splitWsGo : List Char → List Char → Bool → List String
  | [], acc, _ => [String.mk acc.reverse]
  | c :: rest, acc, inSep =>
    if c.isWhitespace then
      if inSep then splitWsGo rest acc true
      else String.mk acc.reverse :: splitWsGo rest [] true
    else splitWsGo rest (c :: acc) false

/-- `String.prototype.split(/\s+/)`: split on whitespace runs, keeping the
empty token JavaScript produces before a leading run and after a trailing
run. -/
def splitWs (s : String) : List String := splitWsGo s.data [] false

/-! ## Data model (`src/types/index.ts`) -/

/-- `Phone` — an immutable catalog row. -/
structure Phone where
  id : ℕ
  company_name : String
  model_name : String
  processor : String
  launched_year : ℚ
  user_rating : ℚ
  user_review : String
  camera_rating : ℚ
  battery_rating : ℚ
  design_rating : ℚ
  display_rating : ℚ
  performance_rating : ℚ
  memory_gb : ℚ
  weight_g : ℚ
  ram_gb : ℚ
  front_camera_mp : ℚ
  back_camera_mp : ℚ
  battery_mah : ℚ
  price_inr : ℚ
  screen_size : ℚ
deriving DecidableEq, Repr, Inhabited

/-- `Filters` — sparse inclusive bounds plus an optional brand constraint. -/
structure Filters where
  company : Option String := none
  minPrice : Option ℚ := none
  maxPrice : Option ℚ := none
  minCamera : Option ℚ := none
  maxCamera : Option ℚ := none
  minBattery : Option ℚ := none
  maxBattery : Option ℚ := none
  minRam : Option ℚ := none
  maxRam : Option ℚ := none
  minStorage : Option ℚ := none
  maxStorage : Option ℚ := none
deriving DecidableEq, Repr, Inhabited

/-- `ParsedIntent.task`. -/
inductive IntentTask
  | query
  | general_qa
  | reject
deriving DecidableEq, Repr, Inhabited

/-- `ParsedIntent.comparison_type`. -/
inductive ComparisonType
  | single
  | multi
  | range
deriving DecidableEq, Repr, Inhabited

/-- `ParsedIntent.entities.price_range`. -/
structure PriceRange where
  min : Option ℚ := none
  max : Option ℚ := none
deriving DecidableEq, Repr, Inhabited

/-- `ParsedIntent.entities`.  The TypeScript interface declares `entities`
itself as present, but the value comes from an unvalidated `JSON.parse`
cast and all the reading code uses optional chaining, so every field (and
the record, where it is used) is modelled as optional. -/
structure IntentEntities where
  company : Option (List String) := none
  model : Option (List String) := none
  price_range : Option PriceRange := none
  features : Option (List String) := none
deriving DecidableEq, Repr, Inhabited

/-- `ParsedIntent.constraints`. -/
structure IntentConstraints where
  min_price : Option ℚ := none
  max_price : Option ℚ := none
  min_ram : Option ℚ := none
  max_ram : Option ℚ := none
  min_battery : Option ℚ := none
  max_battery : Option ℚ := none
  min_camera : Option ℚ := none
  max_camera : Option ℚ := none
  min_storage : Option ℚ := none
  max_storage : Option ℚ := none
deriving DecidableEq, Repr, Inhabited

/-- `ParsedIntent`. -/
structure ParsedIntent where
  task : IntentTask
  entities : Option IntentEntities := none
  constraints : Option IntentConstraints := none
  priority_features : Option (List String) := none
  comparison_type : Option ComparisonType := none
deriving DecidableEq, Repr, Inhabited

/-- `ChatHistoryMessage` — one conversation turn. -/
structure ChatHistoryMessage where
  role : String
  content : String
  phones : Option (List Phone) := none
deriving DecidableEq, Repr, Inhabited

/-- `ChatResponse` — the engine's only output type. -/
structure ChatResponse where
  message : String
  phones : Option (List Phone) := none
  error : Option String := none
  warning : Option String := none
deriving DecidableEq, Repr, Inhabited

/-- `VectorSearchResult.metadata`. -/
structure VectorMetadata where
  type : String
  value : String
  company : Option String := none
deriving DecidableEq, Repr, Inhabited

/-- `VectorSearchResult`. -/
structure VectorSearchResult where
  id : String
  score : ℚ
  metadata : VectorMetadata
deriving DecidableEq, Repr, Inhabited

/-! ## JavaScript truthiness -/

/-- Truthiness of an optional number: `undefined` and `0` are falsy. -/
def truthyNum : Option ℚ → Bool
  | none => false
  | some x => x != 0

/-- Truthiness of an optional string: `undefined` and `""` are falsy. -/
def truthyStr : Option String → Bool
  | none => false
  | some s => !s.data.isEmpty

/-- `a || b` on optional numbers. -/
def jsOrNum (a b : Option ℚ) : Option ℚ := if truthyNum a then a else b

/-- `a || b` on optional strings. -/
def jsOrStr (a b : Option String) : Option String := if truthyStr a then a else b

/-! ## Fallback Matcher: `levenshteinDistance` and `stringSimilarity`
(`vector-client.ts`) -/

/-- One step of the inner loop of `levenshteinDistance`: given the current
character `c` of the first string, the remaining characters `ds` of the
second string, the previous row of `costs` from index `j-1` on, and
`lastValue` (the freshly computed cell `j-1` of the new row), produce the
cells `j, j+1, …` of the new row.  `if s1.charAt(i-1) !== s2.charAt(j-1)`
then `min(min(costs[j-1], lastValue), costs[j]) + 1` else `costs[j-1]`. -/
def levNextRow (c : Char) : List Char → List ℕ → ℕ → List ℕ
  | d :: ds, p0 :: p1 :: ps, lastValue =>
    let newValue := if c = d then p0 else min (min p0 lastValue) p1 + 1
    newValue :: levNextRow c ds (p1 :: ps) newValue
  | _, _, _ => []

/-- The outer loop of `levenshteinDistance`: fold the rows of the dynamic
programme over the characters of the first string.  Row `0` is
`[0, 1, …, n]`; row `i` starts with `i` (the initial `lastValue`). -/
def levRows (s2 : List Char) : List Char → ℕ → List ℕ → List ℕ
  | [], _, row => row
  | c :: cs, i, row => levRows s2 cs (i + 1) ((i + 1) :: levNextRow c s2 row (i + 1))

/-- Row 0 of the dynamic programme: `costs[j] = j`. -/
def levRowZero : List Char → ℕ → List ℕ
  | [], j => [j]
  | _ :: ds, j => j :: levRowZero ds (j + 1)

/-- `VectorClient.levenshteinDistance` (the single-row dynamic programme),
as a pure function on character lists; the result is the last entry
(`costs[s2.length]`) of the final row. -/
def levenshteinDistance (s1 s2 : String) : ℕ :=
  (levRows s2.data s1.data 0 (levRowZero s2.data 0)).getLastD 0

/-- Reference definition: the textbook Levenshtein edit distance, by
structural recursion (matching characters cost nothing and are consumed;
otherwise one plus the best of substitution, deletion and insertion). -/
def levRec : List Char → List Char → ℕ
  | [], ys => ys.length
  | x :: xs, [] => (x :: xs).length
  | x :: xs, y :: ys =>
    if x = y then levRec xs ys
    else 1 + min (levRec xs ys) (min (levRec (x :: xs) ys) (levRec xs (y :: ys)))
termination_by xs ys => xs.length + ys.length

theorem levRec_nil_right (xs : List Char) : levRec xs [] = xs.length := by
  cases xs <;> simp [levRec]

theorem levRec_nil_left (ys : List Char) : levRec [] ys = ys.length := by
  simp [levRec]

theorem levRec_cons_cons (x y : Char) (xs ys : List Char) :
    levRec (x :: xs) (y :: ys) =
      if x = y then levRec xs ys
      else 1 + min (levRec xs ys) (min (levRec (x :: xs) ys) (levRec xs (y :: ys))) := by
  simp [levRec]

/-- The Levenshtein distance is symmetric. -/
theorem levRec_symm (xs ys : List Char) : levRec xs ys = levRec ys xs := by
  suffices hgen : ∀ n (xs ys : List Char), xs.length + ys.length = n →
      levRec xs ys = levRec ys xs from hgen _ xs ys rfl
  intro n
  induction n using Nat.strong_induction_on with
  | _ n ih =>
    intro xs ys hn
    cases xs with
    | nil => rw [levRec_nil_left, levRec_nil_right]
    | cons x xs =>
      cases ys with
      | nil => rw [levRec_nil_right, levRec_nil_left]
      | cons y ys =>
        simp only [List.length_cons] at hn
        rw [levRec_cons_cons, levRec_cons_cons]
        by_cases hxy : x = y
        · rw [if_pos hxy, if_pos hxy.symm]
          exact ih _ (by omega) xs ys rfl
        · rw [if_neg hxy, if_neg (Ne.symm hxy)]
          rw [ih (xs.length + ys.length) (by omega) xs ys rfl,
            ih ((x :: xs).length + ys.length) (by simp; omega) (x :: xs) ys rfl,
            ih (xs.length + (y :: ys).length) (by simp; omega) xs (y :: ys) rfl]
          omega

theorem levRec_self : ∀ xs : List Char, levRec xs xs = 0
  | [] => by simp [levRec]
  | x :: xs => by rw [levRec_cons_cons, if_pos rfl, levRec_self xs]

/-- If the two strings share no character, the distance is the longer
length (every alignment step costs one). -/
theorem levRec_disjoint (xs ys : List Char) (h : ∀ c ∈ xs, c ∉ ys) :
    levRec xs ys = max xs.length ys.length := by
  suffices hgen : ∀ n (xs ys : List Char), xs.length + ys.length = n →
      (∀ c ∈ xs, c ∉ ys) → levRec xs ys = max xs.length ys.length from
    hgen _ xs ys rfl h
  clear h xs ys
  intro n
  induction n using Nat.strong_induction_on with
  | _ n ih =>
    intro xs ys hn h
    cases xs with
    | nil => rw [levRec_nil_left]; simp
    | cons x xs =>
      cases ys with
      | nil => rw [levRec_nil_right]; simp
      | cons y ys =>
        simp only [List.length_cons] at hn
        have hxy : x ≠ y := by
          intro he; exact h x (by simp) (by simp [he])
        rw [levRec_cons_cons, if_neg hxy]
        rw [ih (xs.length + ys.length) (by omega) xs ys rfl
            (fun c hc hc2 => h c (by simp [hc]) (by simp [hc2])),
          ih ((x :: xs).length + ys.length) (by simp; omega) (x :: xs) ys rfl
            (fun c hc hc2 => h c hc (by simp [hc2])),
          ih (xs.length + (y :: ys).length) (by simp; omega) xs (y :: ys) rfl
            (fun c hc => h c (by simp [hc]))]
        simp only [List.length_cons]
        omega

/-- The row of reference distances `levRec P (d :: Q), …` as `Q` is
extended along `ds`; `P` is the (reversed) processed part of the first
string. -/
def levIdealTail (P Q : List Char) : List Char → List ℕ
  | [] => []
  | d :: ds => levRec P (d :: Q) :: levIdealTail P (d :: Q) ds

theorem levNextRow_ideal (c : Char) (P : List Char) :
    ∀ (ds Q : List Char),
      levNextRow c ds (levRec P Q :: levIdealTail P Q ds) (levRec (c :: P) Q) =
        levIdealTail (c :: P) Q ds := by
  intro ds
  induction ds with
  | nil => intro Q; simp [levIdealTail, levNextRow]
  | cons d ds ihd =>
    intro Q
    show levNextRow c (d :: ds)
        (levRec P Q :: levRec P (d :: Q) :: levIdealTail P (d :: Q) ds)
        (levRec (c :: P) Q) = _
    simp only [levNextRow]
    have hv : (if c = d then levRec P Q
        else min (min (levRec P Q) (levRec (c :: P) Q)) (levRec P (d :: Q)) + 1) =
        levRec (c :: P) (d :: Q) := by
      rw [levRec_cons_cons]
      by_cases hcd : c = d
      · simp [hcd]
      · rw [if_neg hcd, if_neg hcd]; omega
    rw [hv, ihd (d :: Q)]
    simp [levIdealTail]

theorem levRowZero_ideal_gen (ds : List Char) :
    ∀ Q : List Char, levRowZero ds Q.length = levRec [] Q :: levIdealTail [] Q ds := by
  induction ds with
  | nil => intro Q; simp [levRowZero, levIdealTail, levRec_nil_left]
  | cons d ds ihd =>
    intro Q
    show levRowZero (d :: ds) Q.length = _
    simp only [levRowZero, levIdealTail]
    rw [levRec_nil_left]
    have := ihd (d :: Q)
    simp only [List.length_cons] at this
    rw [this, levRec_nil_left]

theorem levRows_ideal (s2 : List Char) :
    ∀ (cs P : List Char),
      levRows s2 cs P.length (levRec P [] :: levIdealTail P [] s2) =
        levRec (cs.reverse ++ P) [] :: levIdealTail (cs.reverse ++ P) [] s2 := by
  intro cs
  induction cs with
  | nil => intro P; simp [levRows]
  | cons c cs ihc =>
    intro P
    simp only [levRows]
    have hcP : levRec (c :: P) [] = P.length + 1 := by
      rw [levRec_nil_right]; simp
    have hstep : (P.length + 1) :: levNextRow c s2 (levRec P [] :: levIdealTail P [] s2) (P.length + 1) =
        levRec (c :: P) [] :: levIdealTail (c :: P) [] s2 := by
      rw [← hcP]
      exact congrArg (levRec (c :: P) [] :: ·) (levNextRow_ideal c P s2 [])
    rw [hstep]
    have hlen : (c :: P).length = P.length + 1 := rfl
    rw [← hlen, ihc (c :: P)]
    simp

theorem levRow_getLast (P : List Char) :
    ∀ (ds Q : List Char) (d0 : ℕ),
      (levRec P Q :: levIdealTail P Q ds).getLastD d0 = levRec P (ds.reverse ++ Q) := by
  intro ds
  induction ds with
  | nil => intro Q d0; simp [levIdealTail]
  | cons d ds ihd =>
    intro Q d0
    show ((levRec P Q :: levRec P (d :: Q) :: levIdealTail P (d :: Q) ds)).getLastD d0 = _
    rw [List.getLastD_cons, ihd (d :: Q) (levRec P Q)]
    simp

/-- The dynamic programme computes the reference distance on the reversed
inputs. -/
theorem levenshteinDistance_eq (s1 s2 : String) :
    levenshteinDistance s1 s2 = levRec s1.data.reverse s2.data.reverse := by
  unfold levenshteinDistance
  have h0 : levRowZero s2.data 0 = levRec [] [] :: levIdealTail [] [] s2.data := by
    simpa using levRowZero_ideal_gen s2.data []
  rw [h0]
  have h1 := levRows_ideal s2.data s1.data []
  simp only [List.length_nil, List.append_nil] at h1
  rw [h1, levRow_getLast]
  simp [levRec_symm]

/-- `VectorClient.stringSimilarity`: normalized edit distance.  The longer
string is the first argument to the distance routine; identical lengths
keep `(s2, s1)` order, exactly as the TypeScript ternary does. -/
def stringSimilarity (s1 s2 : String) : ℚ :=
  let longer := if s1.data.length > s2.data.length then s1 else s2
  let shorter := if s1.data.length > s2.data.length then s2 else s1
  if longer.data.length = 0 then 1
  else ((longer.data.length : ℚ) - (levenshteinDistance longer shorter : ℚ)) / (longer.data.length : ℚ)

/-- The embedded `levenshteinDistance` routine is symmetric (hence the
`longer/shorter` argument shuffle in `stringSimilarity` does not change
the distance). -/
theorem levenshteinDistance_symm (a b : String) :
    levenshteinDistance a b = levenshteinDistance b a := by
  rw [levenshteinDistance_eq, levenshteinDistance_eq, levRec_symm]

/-! ## Rational literals of the source

`Rat` values built with `/` do not evaluate under kernel reduction, so the
decimal literals of the TypeScript source (`0.7`, `0.5`, `0.6`) are given
directly in lowest terms; the lemmas tie them to the usual numerals. -/

/-- The source literal `0.7` (typo-correction acceptance threshold). -/
def ratPoint7 : ℚ := ⟨7, 10, by decide, by decide⟩

/-- The source literal `0.5` (fallback company-similarity cut-off). -/
def ratPoint5 : ℚ := ⟨1, 2, by decide, by decide⟩

/-- The source literal `0.6` (fallback model-score floor). -/
def ratPoint6 : ℚ := ⟨3, 5, by decide, by decide⟩

theorem ratPoint7_eq : ratPoint7 = 7/10 := by
  show (⟨7, 10, by decide, by decide⟩ : ℚ) = 7/10
  rw [Rat.mk'_eq_divInt, Rat.divInt_eq_div]
  norm_num

theorem ratPoint5_eq : ratPoint5 = 1/2 := by
  show (⟨1, 2, by decide, by decide⟩ : ℚ) = 1/2
  rw [Rat.mk'_eq_divInt, Rat.divInt_eq_div]
  norm_num

theorem ratPoint6_eq : ratPoint6 = 3/5 := by
  show (⟨3, 5, by decide, by decide⟩ : ℚ) = 3/5
  rw [Rat.mk'_eq_divInt, Rat.divInt_eq_div]
  norm_num

/-! ## Sorting

`Array.prototype.sort` (stable) with comparator `(a, b) => k(b) - k(a)`
places `x` before `y` exactly when `k(y) ≤ k(x)`; SQLite `ORDER BY`
produces some ordering pairwise consistent with its keys.  Both are
modelled by the stable `List.insertionSort` on the matching total
preorder. -/

/-- `a` may precede `b` under the comparator
`(a, b) => b.user_rating - a.user_rating` (rating descending). -/
def ratingGE (a b : Phone) : Prop := b.user_rating ≤ a.user_rating

instance : DecidableRel ratingGE := fun a b =>
  inferInstanceAs (Decidable (b.user_rating ≤ a.user_rating))

instance : IsTotal Phone ratingGE :=
  ⟨fun a b => le_total b.user_rating a.user_rating⟩

instance : IsTrans Phone ratingGE :=
  ⟨fun _ _ _ hab hbc => le_trans hbc hab⟩

/-- `ORDER BY user_rating DESC, price_inr ASC` as a total preorder. -/
def lexOrder (a b : Phone) : Prop :=
  b.user_rating < a.user_rating ∨
    (a.user_rating = b.user_rating ∧ a.price_inr ≤ b.price_inr)

instance : DecidableRel lexOrder := fun a b =>
  inferInstanceAs (Decidable (b.user_rating < a.user_rating ∨
    (a.user_rating = b.user_rating ∧ a.price_inr ≤ b.price_inr)))

instance : IsTotal Phone lexOrder := by
  constructor
  intro a b
  rcases lt_trichotomy a.user_rating b.user_rating with h | h | h
  · exact Or.inr (Or.inl h)
  · rcases le_total a.price_inr b.price_inr with hp | hp
    · exact Or.inl (Or.inr ⟨h, hp⟩)
    · exact Or.inr (Or.inr ⟨h.symm, hp⟩)
  · exact Or.inl (Or.inl h)

instance : IsTrans Phone lexOrder := by
  constructor
  intro a b c hab hbc
  rcases hab with h1 | ⟨h1, h1p⟩
  · rcases hbc with h2 | ⟨h2, _⟩
    · exact Or.inl (h2.trans h1)
    · exact Or.inl (h2 ▸ h1)
  · rcases hbc with h2 | ⟨h2, h2p⟩
    · exact Or.inl (h1 ▸ h2)
    · exact Or.inr ⟨h1.trans h2, h1p.trans h2p⟩

/-- `phones.sort((a, b) => b.user_rating - a.user_rating)` (also used with
`(b.user_rating || 0) - (a.user_rating || 0)`, which orders identically
since ratings are always present in a catalog row). -/
def sortRatingDesc (phones : List Phone) : List Phone :=
  List.insertionSort ratingGE phones

/-! ## Catalog Accessor (`database.ts`)

The SQLite store is modelled as an in-memory catalog `List Phone`; the
`WHERE`/`ORDER BY`/`LIMIT` clauses built by each accessor are interpreted
over it. -/

/-- The `WHERE` clause assembled by `getFilteredPhones`: one conjunct per
supplied filter (`!== undefined` — a `0` bound *is* applied), with
`LOWER(company_name) = LOWER(?)` for the brand. -/
def matchesFilters (filters : Filters) (p : Phone) : Bool :=
  (match filters.company with
    | none => true
    | some co => lowerStr p.company_name = lowerStr co) &&
  (match filters.minPrice with
    | none => true
    | some v => decide (v ≤ p.price_inr)) &&
  (match filters.maxPrice with
    | none => true
    | some v => decide (p.price_inr ≤ v)) &&
  (match filters.minCamera with
    | none => true
    | some v => decide (v ≤ p.back_camera_mp)) &&
  (match filters.maxCamera with
    | none => true
    | some v => decide (p.back_camera_mp ≤ v)) &&
  (match filters.minBattery with
    | none => true
    | some v => decide (v ≤ p.battery_mah)) &&
  (match filters.maxBattery with
    | none => true
    | some v => decide (p.battery_mah ≤ v)) &&
  (match filters.minRam with
    | none => true
    | some v => decide (v ≤ p.ram_gb)) &&
  (match filters.maxRam with
    | none => true
    | some v => decide (p.ram_gb ≤ v)) &&
  (match filters.minStorage with
    | none => true
    | some v => decide (v ≤ p.memory_gb)) &&
  (match filters.maxStorage with
    | none => true
    | some v => decide (p.memory_gb ≤ v))

/-- `getFilteredPhones`: filter, `ORDER BY user_rating DESC, price_inr
ASC`, `LIMIT 50`. -/
def getFilteredPhones (catalog : List Phone) (filters : Filters) : List Phone :=
  (List.insertionSort lexOrder (catalog.filter (matchesFilters filters))).take 50

/-- `searchPhonesByModel`: `LOWER(model_name) LIKE LOWER('%term%') ORDER BY
user_rating DESC LIMIT 10`. -/
def searchPhonesByModel (catalog : List Phone) (searchTerm : String) : List Phone :=
  (List.insertionSort ratingGE
    (catalog.filter (fun p => jsIncludes (lowerStr p.model_name) (lowerStr searchTerm)))).take 10

/-! ## Fallback Matcher (`VectorClient.fallbackSimilar`)

The database collaborators `getCompanies()` and `searchPhonesByModel` are
supplied as the `companies` list and the `catalog`. -/

/-- `b.score - a.score` comparator (score descending). -/
def scoreGE (a b : VectorSearchResult) : Prop := b.score ≤ a.score

instance : DecidableRel scoreGE := fun a b =>
  inferInstanceAs (Decidable (b.score ≤ a.score))

instance : IsTotal VectorSearchResult scoreGE :=
  ⟨fun a b => le_total b.score a.score⟩

instance : IsTrans VectorSearchResult scoreGE :=
  ⟨fun _ _ _ hab hbc => le_trans hbc hab⟩

/-- The company half of `fallbackSimilar`: every known company whose
similarity to the query exceeds `0.5`. -/
def fallbackCompanyResults (companies : List String) (queryLower : String) : List VectorSearchResult :=
  (companies.filter
      (fun company => ratPoint5 < stringSimilarity queryLower (lowerStr company))).map
    (fun company =>
      { id := "company-" ++ company,
        score := stringSimilarity queryLower (lowerStr company),
        metadata := { type := "company", value := company } })

/-- The model half of `fallbackSimilar`: the first five phones of a raw
model-substring search, scored at least `0.6`. -/
def fallbackModelResults (catalog : List Phone) (query queryLower : String) : List VectorSearchResult :=
  ((searchPhonesByModel catalog query).take 5).map
    (fun phone =>
      { id := "model-" ++ toString phone.id,
        score := max (stringSimilarity queryLower (lowerStr phone.model_name)) ratPoint6,
        metadata := { type := "model", value := phone.model_name,
                      company := some phone.company_name } })

/-- `VectorClient.fallbackSimilar`: string-similarity matching used when
the Pinecone index is unavailable; results sorted by score descending,
top 5. -/
def fallbackSimilar (companies : List String) (catalog : List Phone)
    (query : String) (typeFilter : Option String) : List VectorSearchResult :=
  let queryLower := lowerStr query
  let companyResults :=
    if typeFilter = none ∨ typeFilter = some "company" then
      fallbackCompanyResults companies queryLower
    else []
  let modelResults :=
    if typeFilter = none ∨ typeFilter = some "model" then
      fallbackModelResults catalog query queryLower
    else []
  (List.insertionSort scoreGE (companyResults ++ modelResults)).take 5

/-! ## Generation Client (`llm-client.ts`)

`generateContent` (the OpenAI round trip) is an oracle; `JSON.parse`
composed with the unchecked cast to `ParsedIntent` is the oracle
`jsonParse` (`none` models a parse throw). -/

/-- `normalizeIntent`: lower-case the brand and model entity lists when
present. -/
def normalizeIntent (intent : ParsedIntent) : ParsedIntent :=
  match intent.entities with
  | none => intent
  | some e =>
    { intent with
      entities := some { e with
        company := e.company.map (List.map lowerStr),
        model := e.model.map (List.map lowerStr) } }

/-- The markdown-fence clean-up in `parseIntent`: trim, strip a leading
"```json" (7 chars) or "```" (3 chars) and a trailing "```", trim again. -/
def cleanIntentReply (response : String) : String :=
  let c0 := jsTrim response
  let c1 := if startsWithS c0 "```json" then dropN c0 7 else c0
  let c2 := if startsWithS c1 "```" then dropN c1 3 else c1
  let c3 := if endsWithS c2 "```" then dropLastN c2 3 else c2
  jsTrim c3

/-- The safe default intent returned when the generation reply is not
parseable JSON. -/
def defaultIntent : ParsedIntent :=
  { task := IntentTask.query,
    entities := some {},
    constraints := some {},
    comparison_type := some ComparisonType.single }

/-- `LLMClient.parseIntent`: clean the generation reply, `JSON.parse` it,
normalize on success, degrade to `defaultIntent` on parse failure.  A
thrown generation call propagates; a parse throw is caught locally. -/
def parseIntent (intentReply : Except String String)
    (jsonParse : String → Option ParsedIntent) : Except String ParsedIntent :=
  match intentReply with
  | Except.error e => Except.error e
  | Except.ok response =>
    let cleanResponse := cleanIntentReply response
    match jsonParse cleanResponse with
    | some parsed => Except.ok (normalizeIntent parsed)
    | none => Except.ok defaultIntent

/-- The markdown-fence clean-up in `generateSQL` ("```sql" is 6 chars). -/
def cleanSQLReply (response : String) : String :=
  let c0 := jsTrim response
  let c1 := if startsWithS c0 "```sql" then dropN c0 6 else c0
  let c2 := if startsWithS c1 "```" then dropN c1 3 else c1
  let c3 := if endsWithS c2 "```" then dropLastN c2 3 else c2
  jsTrim c3

/-- `LLMClient.generateSQL`: throw unless the cleaned reply starts with
`SELECT` (case-insensitively); append " LIMIT 5" when no `LIMIT` substring
is present. -/
def generateSQL (sqlReply : Except String String) : Except String String :=
  match sqlReply with
  | Except.error e => Except.error e
  | Except.ok response =>
    let sql := cleanSQLReply response
    if !startsWithS (upperStr sql) "SELECT" then
      Except.error "Invalid SQL: Only SELECT statements allowed"
    else if !jsIncludes (upperStr sql) "LIMIT" then
      Except.ok (sql ++ " LIMIT 5")
    else
      Except.ok sql

/-- Worker for `getUniquePhones`: `seen` holds the fingerprints already
kept, `count` the number of phones kept so far; the loop breaks right
after the `limit`-th push. -/
def getUniquePhonesGo (limit : ℕ) : List Phone → List String → ℕ → List Phone
  | [], _, _ => []
  | p :: rest, seen, count =>
    let key := p.company_name ++ "-" ++ p.model_name
    if seen.contains key then getUniquePhonesGo limit rest seen count
    else if limit ≤ count + 1 then [p]
    else p :: getUniquePhonesGo limit rest (key :: seen) (count + 1)

/-- `LLMClient.getUniquePhones`: first occurrence per
`company_name-model_name` fingerprint, capped at `limit`. -/
def getUniquePhones (phones : List Phone) (limit : ℕ) : List Phone :=
  getUniquePhonesGo limit phones [] 0

/-- The fixed no-results reply of `summarize`. -/
def noResultsMessage : String :=
  "I couldn\x27t find any phones matching your criteria. Could you try:\n" ++
  "- Adjusting your price range\n" ++
  "- Trying a different brand\n" ++
  "- Being more specific about features you need"

/-- `LLMClient.summarize`: deduplicate to at most 4 phones; with none
left, answer the fixed no-results message without calling the generation
service; otherwise return the generation reply, trimmed.  `sumReply ps`
is the oracle for the generation round trip on the prompt built from the
deduplicated list `ps` (the query and history are fixed for the request).

-/
def summarize (sumReply : List Phone → Except String String)
    (phones : List Phone) : Except String String :=
  let uniquePhones := getUniquePhones phones 4
  if uniquePhones.isEmpty then Except.ok noResultsMessage
  else
    match sumReply uniquePhones with
    | Except.error e => Except.error e
    | Except.ok response => Except.ok (jsTrim response)

/-! ## Query Processor — pure helpers (`query-processor.ts`) -/

/-- The follow-up phrase list of `isFollowUpQuery`. -/
def followUpPhrases : List String :=
  ["tell me more", "more about", "first one", "second one", "this phone",
   "that phone", "the first", "the second", "which one", "more details",
   "explain", "why", "what about",
   "which is best", "which is the best", "best among", "best one",
   "best phone", "recommend", "should i buy", "should i get",
   "which should i", "top pick", "top choice", "among these", "among all",
   "of these", "out of these"]

/-- `isFollowUpQuery`: the lower-cased message contains one of the
follow-up phrases. -/
def isFollowUpQuery (query : String) : Bool :=
  let lowerQuery := lowerStr query
  followUpPhrases.any (fun phrase => jsIncludes lowerQuery phrase)

/-- The "best phone" phrase list of `isBestPhoneQuery`. -/
def bestPhrases : List String :=
  ["which is best", "which one is best", "which phone is best",
   "which is the best", "which one is the best", "which phone is the best",
   "best among", "best one", "best phone", "recommend one",
   "recommend me one", "should i buy", "should i get", "which should i",
   "pick one", "top choice", "top pick"]

/-- `isBestPhoneQuery`. -/
def isBestPhoneQuery (query : String) : Bool :=
  let lowerQuery := lowerStr query
  bestPhrases.any (fun phrase => jsIncludes lowerQuery phrase)

/-- Worker for `getPhonesFromHistory` over the reversed history. -/
def getPhonesFromHistoryGo : List ChatHistoryMessage → List Phone
  | [] => []
  | m :: rest =>
    match m.phones with
    | some ps => if 0 < ps.length then ps else getPhonesFromHistoryGo rest
    | none => getPhonesFromHistoryGo rest

/-- `getPhonesFromHistory`: the phones of the most recent turn carrying a
non-empty phone list. -/
def getPhonesFromHistory (history : List ChatHistoryMessage) : List Phone :=
  getPhonesFromHistoryGo history.reverse

/-- The user/technical message pair produced by `classifyError`. -/
structure ErrorDetails where
  userMessage : String
  technicalMessage : String
deriving DecidableEq, Repr, Inhabited

/-- `classifyError`: pattern matching over the lower-cased upstream error
message.  (The user-message literals are copied from the source file,
including its mangled emoji bytes.) -/
def classifyError (errorMessage : String) : ErrorDetails :=
  let lowerError := lowerStr errorMessage
  if jsIncludes lowerError "rate_limit" || jsIncludes lowerError "rate limit" ||
      jsIncludes lowerError "429" || jsIncludes lowerError "too many requests" then
    { userMessage := "‚è≥ Our AI service is temporarily busy. While waiting, here are some phones that might match your query:",
      technicalMessage := "Rate limit exceeded" }
  else if jsIncludes lowerError "quota" || jsIncludes lowerError "insufficient_quota" ||
      jsIncludes lowerError "billing" || jsIncludes lowerError "exceeded" then
    { userMessage := "‚ö†Ô∏è AI service quota reached. Here are phones from our database that match your search:",
      technicalMessage := "API quota exceeded" }
  else if jsIncludes lowerError "network" || jsIncludes lowerError "connection" ||
      jsIncludes lowerError "econnrefused" || jsIncludes lowerError "timeout" ||
      jsIncludes lowerError "fetch failed" then
    { userMessage := "üåê Connection issue with AI service. Here are phones that might help:",
      technicalMessage := "Network connection error" }
  else if jsIncludes lowerError "invalid_api_key" || jsIncludes lowerError "authentication" ||
      jsIncludes lowerError "unauthorized" || jsIncludes lowerError "401" then
    { userMessage := "üîë AI service configuration issue. Here are some phone recommendations from our database:",
      technicalMessage := "API authentication error" }
  else
    { userMessage := "Sorry, I couldn\x27t generate a personalized response. Here are some phones that might match your search:",
      technicalMessage := errorMessage }

/-- Digits-to-number (`parseInt` on an all-digit group). -/
def parseDigits (ds : List Char) : ℕ :=
  ds.foldl (fun acc c => acc * 10 + (c.toNat - 48)) 0

/-- First alternative `(\d{1,3})[k,K]` of the fallback price regex at the
current position: one to three digits followed by `k`, `,` or `K` (the
character class of the source contains the comma).  A longer digit run
cannot match, because every backtracked continuation would have to accept
a digit in the class. -/
def alt1At (l : List Char) : Option ℕ :=
  let ds := l.takeWhile Char.isDigit
  if 1 ≤ ds.length ∧ ds.length ≤ 3 then
    match l.drop ds.length with
    | c :: _ => if c = 'k' ∨ c = ',' ∨ c = 'K' then some (parseDigits ds) else none
    | [] => none
  else none

/-- Second alternative `\₹?\s*(\d{4,6})` at the current position: an
optional rupee sign, any whitespace, then at least four digits — the
greedy group captures at most six. -/
def alt2At (l : List Char) : Option ℕ :=
  let l1 := match l with
    | c :: rest => if c = '₹' then rest else l
    | [] => l
  let l2 := l1.dropWhile Char.isWhitespace
  let ds := l2.takeWhile Char.isDigit
  if 4 ≤ ds.length then some (parseDigits (ds.take 6)) else none

/-- `query.match(/(\d{1,3})[k,K]|\₹?\s*(\d{4,6})/)` followed by
`parseInt(group1) * 1000` or `parseInt(group2)`: leftmost match, first
alternative preferred at equal positions.  All arithmetic stays in `ℕ`. -/
def priceScan : List Char → Option ℕ
  | [] => none
  | c :: rest =>
    match alt1At (c :: rest) with
    | some n => some (n * 1000)
    | none =>
      match alt2At (c :: rest) with
      | some n => some n
      | none => priceScan rest

/-- The fixed brand list of `getFallbackResults`. -/
def fallbackBrands : List String :=
  ["samsung", "apple", "iphone", "xiaomi", "oneplus", "vivo", "oppo",
   "realme", "motorola"]

/-- The brand loop of `getFallbackResults`: first listed brand present in
the keyword list, singular or plural, with `iphone` mapped to `apple`. -/
def pickBrand (keywords : List String) : List String → Option String
  | [] => none
  | brand :: rest =>
    if keywords.contains brand || keywords.contains (brand ++ "s") then
      some (if brand = "iphone" then "apple" else brand)
    else pickBrand keywords rest

/-- The filter-extraction part of `getFallbackResults`: price figure and
direction words, then brand keywords.  `Math.max(0, priceValue - 10000)`
coincides with truncated `ℕ` subtraction. -/
def extractFallbackFilters (query : String) : Filters :=
  let keywords := splitWs (lowerStr query)
  let lowerQuery := lowerStr query
  let priceFilters : Filters :=
    match priceScan query.data with
    | none => {}
    | some priceValue =>
      if jsIncludes lowerQuery "under" || jsIncludes lowerQuery "below" then
        { maxPrice := some (priceValue : ℚ) }
      else if jsIncludes lowerQuery "above" || jsIncludes lowerQuery "over" then
        { minPrice := some (priceValue : ℚ) }
      else
        { maxPrice := some ((priceValue + 10000 : ℕ) : ℚ),
          minPrice := some ((priceValue - 10000 : ℕ) : ℚ) }
  { priceFilters with company := pickBrand keywords fallbackBrands }

/-- `Number.prototype.toLocaleString('en-IN')` for a natural number:
digits grouped 3-then-2s.  Worker over the reversed digit list. -/
def groupINGo : List Char → ℕ → List Char
  | [], _ => []
  | c :: rest, k =>
    if k % 2 = 0 then ',' :: c :: groupINGo rest (k + 1)
    else c :: groupINGo rest (k + 1)

/-- Indian-style digit grouping of a natural number. -/
def formatEnIN (n : ℕ) : String :=
  let ds := (toString n).data.reverse
  match ds with
  | [] => ""
  | d0 :: d1 :: d2 :: rest =>
    String.mk ((d0 :: d1 :: d2 :: groupINGo rest 0).reverse)
  | short => String.mk short.reverse

/-- `INR` display of a (catalog-integral) price. -/
def formatPriceINR (q : ℚ) : String := formatEnIN q.num.toNat

/-- `generateFallbackMessage`: the numbered top-5 list appended to the
warning. -/
def generateFallbackMessage (warningMessage : String) (phones : List Phone) : String :=
  let phoneList := String.intercalate "\n"
    (((phones.take 5).enum).map
      (fun pi =>
        toString (pi.1 + 1) ++ ". **" ++ pi.2.company_name ++ " " ++
          pi.2.model_name ++ "** - ‚Çπ" ++ formatPriceINR pi.2.price_inr))
  warningMessage ++ "\n\n" ++ phoneList ++
    "\n\n*Click on any phone card below for full specifications.*"

/-- The per-bound update for a `min` constraint in `mergeFilters`:
`if (c && (!cur || c > cur)) cur = c`. -/
def mergeLower (c cur : Option ℚ) : Option ℚ :=
  if truthyNum c && (!truthyNum cur || decide (cur.getD 0 < c.getD 0)) then c else cur

/-- The per-bound update for a `max` constraint in `mergeFilters`:
`if (c && (!cur || c < cur)) cur = c`. -/
def mergeUpper (c cur : Option ℚ) : Option ℚ :=
  if truthyNum c && (!truthyNum cur || decide (c.getD 0 < cur.getD 0)) then c else cur

/-- `mergeFilters`: merge intent-derived constraints into a copy of the
caller's filters, then take the intent's first brand when the caller's
is missing (or empty, which is falsy). -/
def mergeFilters (filters : Filters) (intent : ParsedIntent) : Filters :=
  let constraints := intent.constraints.getD {}
  let merged : Filters :=
    { filters with
      minPrice := mergeLower constraints.min_price filters.minPrice,
      maxPrice := mergeUpper constraints.max_price filters.maxPrice,
      minRam := mergeLower constraints.min_ram filters.minRam,
      maxRam := mergeUpper constraints.max_ram filters.maxRam,
      minBattery := mergeLower constraints.min_battery filters.minBattery,
      maxBattery := mergeUpper constraints.max_battery filters.maxBattery,
      minCamera := mergeLower constraints.min_camera filters.minCamera,
      maxCamera := mergeUpper constraints.max_camera filters.maxCamera,
      minStorage := mergeLower constraints.min_storage filters.minStorage,
      maxStorage := mergeUpper constraints.max_storage filters.maxStorage }
  let companyList := (intent.entities.bind IntentEntities.company).getD []
  if 0 < companyList.length ∧ !truthyStr merged.company then
    { merged with company := some companyList.headI }
  else merged

/-- `inferCompanyFromModel`: static keyword-to-brand table, first match in
insertion order. -/
def companyPatterns : List (String × List String) :=
  [("samsung", ["galaxy", "s24", "s23", "s22", "s21", "a55", "a54", "a53",
                "m54", "m53", "fold", "flip"]),
   ("apple", ["iphone"]),
   ("google", ["pixel"]),
   ("oneplus", ["oneplus", "nord"]),
   ("xiaomi", ["redmi", "poco", "mi "]),
   ("realme", ["realme"]),
   ("oppo", ["oppo", "reno", "find"]),
   ("vivo", ["vivo", "iqoo"]),
   ("motorola", ["moto", "edge", "razr"]),
   ("nothing", ["nothing", "phone ("]),
   ("honor", ["honor", "magic"]),
   ("huawei", ["huawei", "mate", "p60", "p50"])]

/-- Worker for `inferCompanyFromModel`. -/
def inferCompanyGo (lowerModel : String) : List (String × List String) → Option String
  | [] => none
  | (company, patterns) :: rest =>
    if patterns.any (fun p => jsIncludes lowerModel p) then some company
    else inferCompanyGo lowerModel rest

/-- `inferCompanyFromModel`. -/
def inferCompanyFromModel (model : String) : Option String :=
  inferCompanyGo (lowerStr model) companyPatterns

/-! ## Query Processor — orchestration (`query-processor.ts`)

All external collaborators reached during one `process` call, bundled as
oracles.  `Except.error msg` models a thrown exception (with its
message). -/

/-- The semantic-search filter object built in `processSingleQuery`. -/
structure SemanticFilters where
  maxPrice : Option ℚ := none
  minPrice : Option ℚ := none
  minRam : Option ℚ := none
  minBattery : Option ℚ := none
  company : Option String := none
deriving DecidableEq, Repr, Inhabited

/-- The external collaborators of one `process` request:
* `intentReply` — `generateContent` on the intent prompt;
* `jsonParse` — `JSON.parse` plus the unchecked `ParsedIntent` cast;
* `sumReply ps` — `generateContent` on the summary prompt for the
  deduplicated phones `ps`;
* `generalReply` — `generateContent` on the general-QA prompt;
* `sqlReply` — `generateContent` on the NL→SQL prompt;
* `findSimilar tok ty` — `vector.findSimilar(tok, ty)`;
* `searchProducts` — `vector.searchProducts(query, filters, topK)`;
* `queryPhones sql params` — `db.queryPhones`;
* `filtered` — `db.getFilteredPhones`. -/
structure Services where
  intentReply : Except String String
  jsonParse : String → Option ParsedIntent
  sumReply : List Phone → Except String String
  generalReply : Except String String
  sqlReply : ParsedIntent → Filters → Except String String
  findSimilar : String → String → Except String (List VectorSearchResult)
  searchProducts : String → SemanticFilters → ℕ → Except String (List Phone)
  queryPhones : String → List String → Except String (List Phone)
  filtered : Filters → Except String (List Phone)

/-- The token-correction loop of `applyCorrections` applied to one entity
list: replace a token by the top match exactly when
`similar.length > 0 && similar[0].score > 0.7`. -/
def correctTokens (find : String → String → Except String (List VectorSearchResult))
    (kind : String) : List String → Except String (List String)
  | [] => Except.ok []
  | tok :: rest =>
    match find tok kind with
    | Except.error e => Except.error e
    | Except.ok similar =>
      let corrected :=
        match similar with
        | top :: _ => if ratPoint7 < top.score then top.metadata.value else tok
        | [] => tok
      match correctTokens find kind rest with
      | Except.error e => Except.error e
      | Except.ok others => Except.ok (corrected :: others)

/-- The model half of `applyCorrections` (runs after the company half). -/
def applyCorrectionsModels (find : String → String → Except String (List VectorSearchResult))
    (c1 : ParsedIntent) : Except String ParsedIntent :=
  match c1.entities.bind IntentEntities.model with
  | none => Except.ok c1
  | some models =>
    match correctTokens find "model" models with
    | Except.error e => Except.error e
    | Except.ok correctedModels =>
      Except.ok { c1 with
        entities := some { c1.entities.getD {} with model := some correctedModels } }

/-- `applyCorrections`: correct the company list, then the model list;
each branch fires when the optional list is present (an empty array is
truthy in JavaScript). -/
def applyCorrections (find : String → String → Except String (List VectorSearchResult))
    (intent : ParsedIntent) : Except String ParsedIntent :=
  match intent.entities.bind IntentEntities.company with
  | none => applyCorrectionsModels find intent
  | some companies =>
    match correctTokens find "company" companies with
    | Except.error e => Except.error e
    | Except.ok correctedCompanies =>
      applyCorrectionsModels find
        { intent with
          entities := some { intent.entities.getD {} with company := some correctedCompanies } }

/-- The brand-alias table of `processMultiBrand`. -/
def brandMappings : List (String × List String) :=
  [("apple", ["apple", "iphone"]),
   ("samsung", ["samsung", "galaxy"]),
   ("google", ["google", "pixel"]),
   ("oneplus", ["oneplus", "one plus"]),
   ("xiaomi", ["xiaomi", "redmi", "poco"]),
   ("realme", ["realme"]),
   ("oppo", ["oppo", "reno"]),
   ("vivo", ["vivo", "iqoo"]),
   ("motorola", ["motorola", "moto"]),
   ("nothing", ["nothing"]),
   ("honor", ["honor"]),
   ("huawei", ["huawei"])]

/-- The search-term selection of `processMultiBrand`: default
`[lowerCompany]`, replaced by `brand :: aliases` at the first mapping hit.
-/
def brandSearchTerms (lowerCompany : String) : List (String × List String) → List String
  | [] => [lowerCompany]
  | (brand, aliases) :: rest =>
    if aliases.any (fun al => jsIncludes lowerCompany al) ||
        jsIncludes lowerCompany brand then
      brand :: aliases
    else brandSearchTerms lowerCompany rest

/-- The per-brand SQL of `processMultiBrand` (template literal, whitespace
normalized). -/
def multiBrandSQL : String :=
  "SELECT * FROM phones WHERE LOWER(company_name) LIKE LOWER(?) ORDER BY user_rating DESC, price_inr ASC LIMIT 3"

/-- Try each search term until one returns rows (the source keeps the last
empty result when none does). -/
def firstTermResults (svc : Services) (sql : String) : List String → Except String (List Phone)
  | [] => Except.ok []
  | term :: rest =>
    match svc.queryPhones sql ["%" ++ term ++ "%"] with
    | Except.error e => Except.error e
    | Except.ok results =>
      if 0 < results.length then Except.ok results
      else firstTermResults svc sql rest

/-- The `id`-deduplicating accumulation of `processMultiBrand`. -/
def addUniqueById (phones : List Phone) : List Phone → List Phone
  | [] => phones
  | p :: rest =>
    if phones.any (fun q => q.id = p.id) then addUniqueById phones rest
    else addUniqueById (phones ++ [p]) rest

/-- Worker for `processMultiBrand` over the companies of the intent. -/
def processMultiBrandGo (svc : Services) : List String → List Phone → Except String (List Phone)
  | [], phones => Except.ok phones
  | company :: rest, phones =>
    let lowerCompany := lowerStr company
    let searchTerms := brandSearchTerms lowerCompany brandMappings
    match firstTermResults svc multiBrandSQL searchTerms with
    | Except.error e => Except.error e
    | Except.ok results => processMultiBrandGo svc rest (addUniqueById phones results)

/-- `processMultiBrand`: top-3 rows per named brand, deduplicated by id.
-/
def processMultiBrand (svc : Services) (intent : ParsedIntent) : Except String (List Phone) :=
  processMultiBrandGo svc ((intent.entities.bind IntentEntities.company).getD []) []

/-- The model-alias table of `processMultiModel`. -/
def modelAliases : List (String × List String) :=
  [("s24", ["galaxy s24 128gb", "galaxy s24 256gb", "galaxy s24"]),
   ("s24 ultra", ["galaxy s24 ultra 128gb", "galaxy s24 ultra 256gb", "s24 ultra"]),
   ("s24+", ["galaxy s24+ 128gb", "galaxy s24+ 256gb", "s24+"]),
   ("s23", ["galaxy s23 128gb", "galaxy s23 256gb", "galaxy s23"]),
   ("s23 ultra", ["galaxy s23 ultra", "s23 ultra"]),
   ("a55", ["galaxy a55", "a55 5g"]),
   ("a54", ["galaxy a54", "a54 5g"]),
   ("iphone 15", ["iphone 15", "iphone 15 128gb"]),
   ("iphone 15 pro", ["iphone 15 pro", "iphone 15 pro 128gb", "iphone 15 pro 256gb"]),
   ("iphone 15 pro max", ["iphone 15 pro max", "iphone 15 pro max 128gb", "iphone 15 pro max 256gb"]),
   ("iphone 14", ["iphone 14", "iphone 14 128gb"]),
   ("pixel 8", ["pixel 8", "pixel 8 128gb"]),
   ("pixel 8 pro", ["pixel 8 pro", "pixel 8 pro 128gb"]),
   ("pixel 8a", ["pixel 8a", "pixel 8a 128gb"]),
   ("oneplus 12", ["oneplus 12", "oneplus 12 256gb"]),
   ("oneplus 12r", ["oneplus 12r", "oneplus 12r 128gb"]),
   ("oneplus nord", ["nord ce", "nord 3", "nord 4"]),
   ("redmi note 13", ["redmi note 13", "redmi note 13 pro", "redmi note 13 pro+"]),
   ("nothing phone", ["phone (1)", "phone (2)", "phone 2a"])]

/-- Assoc lookup (`modelAliases[lowerModel] || []`). -/
def aliasLookup (key : String) : List (String × List String) → List String
  | [] => []
  | (k, v) :: rest => if k = key then v else aliasLookup key rest

/-- The single-row model-search SQL used by strategies 1, 3, 4 and 5 of
`processMultiModel`. -/
def modelSearchSQL : String :=
  "SELECT * FROM phones WHERE LOWER(model_name) LIKE LOWER(?) ORDER BY user_rating DESC LIMIT 1"

/-- The company-and-model SQL of strategy 2. -/
def companyModelSQL : String :=
  "SELECT * FROM phones WHERE LOWER(company_name) LIKE LOWER(?) AND LOWER(model_name) LIKE LOWER(?) ORDER BY user_rating DESC LIMIT 1"

/-- Strategy 1: alias patterns in order until one returns a row. -/
def tryAliases (svc : Services) : List String → Except String (List Phone)
  | [] => Except.ok []
  | alias0 :: rest =>
    match svc.queryPhones modelSearchSQL ["%" ++ alias0 ++ "%"] with
    | Except.error e => Except.error e
    | Except.ok results =>
      if 0 < results.length then Except.ok results else tryAliases svc rest

/-- `results.length === 0` fall-through between retrieval strategies. -/
def chainEmpty (r next : Except String (List Phone)) : Except String (List Phone) :=
  match r with
  | Except.error e => Except.error e
  | Except.ok l => if 0 < l.length then Except.ok l else next

/-- `lowerModel.match(/^s\d+/)` truthiness. -/
def matchesSDigits (s : String) : Bool :=
  match s.data with
  | 's' :: c :: _ => c.isDigit
  | _ => false

/-- The five-strategy lookup of `processMultiModel` for one named model.
`companies[i] || companies[0] || inferCompanyFromModel(model)` uses
JavaScript truthiness at each step. -/
def multiModelLookup (svc : Services) (companies : List String) (model : String)
    (i : ℕ) : Except String (List Phone) :=
  let company := jsOrStr (companies.get? i)
    (jsOrStr (companies.get? 0) (inferCompanyFromModel model))
  let lowerModel := lowerStr model
  let aliases := aliasLookup lowerModel modelAliases
  chainEmpty (tryAliases svc aliases)
    (chainEmpty
      (if truthyStr company then
        svc.queryPhones companyModelSQL
          ["%" ++ company.getD "" ++ "%", "%" ++ model ++ "%"]
      else Except.ok [])
      (chainEmpty (svc.queryPhones modelSearchSQL ["%" ++ model ++ "%"])
        (chainEmpty
          (if company = some "samsung" || matchesSDigits lowerModel then
            svc.queryPhones modelSearchSQL ["%galaxy " ++ model ++ "%"]
          else Except.ok [])
          (if company = some "apple" && !jsIncludes lowerModel "iphone" then
            svc.queryPhones modelSearchSQL ["%iphone " ++ model ++ "%"]
          else Except.ok []))))

/-- Worker for `processMultiModel` over the named models (index `i` pairs
each model with `companies[i]`); unmatched models are skipped. -/
def processMultiModelGo (svc : Services) (companies : List String) :
    List String → ℕ → List Phone → Except String (List Phone)
  | [], _, phones => Except.ok phones
  | model :: rest, i, phones =>
    match multiModelLookup svc companies model i with
    | Except.error e => Except.error e
    | Except.ok results => processMultiModelGo svc companies rest (i + 1) (phones ++ results)

/-- `processMultiModel`. -/
def processMultiModel (svc : Services) (intent : ParsedIntent) : Except String (List Phone) :=
  processMultiModelGo svc ((intent.entities.bind IntentEntities.company).getD [])
    ((intent.entities.bind IntentEntities.model).getD []) 0 []

/-- `processSingleQuery`: semantic retrieval, then generated SQL, then the
unconditional filter fallback; the first two failures (throw or empty)
fall through. -/
def processSingleQuery (svc : Services) (intent : ParsedIntent) (filters : Filters)
    (originalQuery : Option String) : Except String (List Phone) :=
  let semanticFilters : SemanticFilters :=
    { maxPrice := jsOrNum filters.maxPrice ((intent.constraints.getD {}).max_price),
      minPrice := jsOrNum filters.minPrice ((intent.constraints.getD {}).min_price),
      minRam := jsOrNum filters.minRam ((intent.constraints.getD {}).min_ram),
      minBattery := jsOrNum filters.minBattery ((intent.constraints.getD {}).min_battery),
      company := jsOrStr filters.company
        ((intent.entities.bind IntentEntities.company).bind List.head?) }
  let synthesized :=
    String.intercalate " " ((intent.entities.bind IntentEntities.features).getD []) ++ " " ++
      String.intercalate " " ((intent.entities.bind IntentEntities.company).getD []) ++ " " ++
      String.intercalate " " ((intent.entities.bind IntentEntities.model).getD [])
  let searchQuery := (jsOrStr originalQuery (some synthesized)).getD ""
  let step3 := svc.filtered filters
  let step2 :=
    match generateSQL (svc.sqlReply intent filters) with
    | Except.error _ => step3
    | Except.ok sql =>
      match svc.queryPhones sql [] with
      | Except.error _ => step3
      | Except.ok phones => if 0 < phones.length then Except.ok phones else step3
  match svc.searchProducts (jsTrim searchQuery) semanticFilters 5 with
  | Except.error _ => step2
  | Except.ok phones => if 0 < phones.length then Except.ok phones else step2

/-- `getFallbackResults`: keyword-extracted filters through the catalog,
rating-descending, top 8. -/
def getFallbackResults (svc : Services) (query : String) : Except String (List Phone) :=
  match svc.filtered (extractFallbackFilters query) with
  | Except.error e => Except.error e
  | Except.ok phones => Except.ok ((sortRatingDesc phones).take 8)

/-- The fixed refusal message for rejected queries. -/
def rejectMessage : String :=
  "I\x27m sorry, but I can only help with questions about mobile phones and related technology. Is there something about phones I can help you with?"

/-- The `try` block of `QueryProcessor.process` (everything before the
`catch`).  An `Except.error` models a thrown exception reaching the
`catch`. -/
def processBody (svc : Services) (userQuery : String) (filters : Filters)
    (history : List ChatHistoryMessage) : Except String ChatResponse :=
  let previousPhones := getPhonesFromHistory history
  if isFollowUpQuery userQuery && decide (0 < previousPhones.length) then
    let isBestQuery := isBestPhoneQuery userQuery
    if isBestQuery && decide (1 < previousPhones.length) then
      let sortedPhones := sortRatingDesc previousPhones
      let bestPhone := sortedPhones.headI
      match summarize svc.sumReply [bestPhone] with
      | Except.error e => Except.error e
      | Except.ok summary =>
        Except.ok { message := summary, phones := some [bestPhone] }
    else
      match summarize svc.sumReply previousPhones with
      | Except.error e => Except.error e
      | Except.ok summary =>
        Except.ok { message := summary, phones := some (previousPhones.take 5) }
  else
    match parseIntent svc.intentReply svc.jsonParse with
    | Except.error e => Except.error e
    | Except.ok intent =>
      if intent.task = IntentTask.reject then
        if 0 < previousPhones.length then
          match summarize svc.sumReply previousPhones with
          | Except.error e => Except.error e
          | Except.ok summary =>
            Except.ok { message := summary, phones := some (previousPhones.take 5) }
        else Except.ok { message := rejectMessage }
      else if intent.task = IntentTask.general_qa then
        match svc.generalReply with
        | Except.error e => Except.error e
        | Except.ok answer => Except.ok { message := jsTrim answer }
      else
        match applyCorrections svc.findSimilar intent with
        | Except.error e => Except.error e
        | Except.ok correctedIntent =>
          let mergedFilters := mergeFilters filters correctedIntent
          let phonesE :=
            if correctedIntent.comparison_type = some ComparisonType.multi &&
                decide (0 < ((correctedIntent.entities.bind IntentEntities.model).getD []).length) then
              processMultiModel svc correctedIntent
            else if correctedIntent.comparison_type = some ComparisonType.multi &&
                decide (0 < ((correctedIntent.entities.bind IntentEntities.company).getD []).length) &&
                decide (2 ≤ ((correctedIntent.entities.bind IntentEntities.company).getD []).length) then
              processMultiBrand svc correctedIntent
            else if isFollowUpQuery userQuery && decide (0 < previousPhones.length) then
              Except.ok previousPhones
            else
              processSingleQuery svc correctedIntent mergedFilters (some userQuery)
          match phonesE with
          | Except.error e => Except.error e
          | Except.ok phones =>
            match summarize svc.sumReply phones with
            | Except.error e => Except.error e
            | Except.ok summary =>
              Except.ok { message := summary, phones := some (phones.take 5) }

/-- `QueryProcessor.process`: the `try` block, with the `catch` running
`classifyError` and the keyword fallback; every outcome is a
`ChatResponse` — nothing escapes. -/
def process (svc : Services) (userQuery : String) (filters : Filters)
    (history : List ChatHistoryMessage) : ChatResponse :=
  match processBody svc userQuery filters history with
  | Except.ok r => r
  | Except.error errorMessage =>
    let errorDetails := classifyError errorMessage
    match getFallbackResults svc userQuery with
    | Except.ok fallbackPhones =>
      if 0 < fallbackPhones.length then
        { message := generateFallbackMessage errorDetails.userMessage fallbackPhones,
          phones := some (fallbackPhones.take 5),
          warning := some errorDetails.userMessage }
      else
        { message := errorDetails.userMessage,
          error := some errorDetails.technicalMessage }
    | Except.error _ =>
      { message := errorDetails.userMessage,
        error := some errorDetails.technicalMessage }

/-! ## Concrete fixtures shared by witnesses and counterexamples -/

/-- A concrete catalog row. -/
def phoneA : Phone :=
  { id := 1, company_name := "samsung", model_name := "galaxy s24",
    processor := "snapdragon 8 gen 3", launched_year := 2024, user_rating := 4,
    user_review := "good", camera_rating := 4, battery_rating := 4,
    design_rating := 4, display_rating := 4, performance_rating := 4,
    memory_gb := 128, weight_g := 170, ram_gb := 8, front_camera_mp := 12,
    back_camera_mp := 50, battery_mah := 4000, price_inr := 60000,
    screen_size := 6 }

/-- A second concrete catalog row, lower-rated and cheaper. -/
def phoneB : Phone :=
  { id := 2, company_name := "apple", model_name := "iphone 15",
    processor := "a16", launched_year := 2023, user_rating := 3,
    user_review := "ok", camera_rating := 4, battery_rating := 3,
    design_rating := 5, display_rating := 4, performance_rating := 5,
    memory_gb := 128, weight_g := 171, ram_gb := 6, front_camera_mp := 12,
    back_camera_mp := 48, battery_mah := 3349, price_inr := 70000,
    screen_size := 6 }

/-- Services whose calls all succeed with empty results and a fixed
summary. -/
def svcTrivial : Services :=
  { intentReply := Except.ok "",
    jsonParse := fun _ => none,
    sumReply := fun _ => Except.ok "sum",
    generalReply := Except.ok "",
    sqlReply := fun _ _ => Except.ok "",
    findSimilar := fun _ _ => Except.ok [],
    searchProducts := fun _ _ _ => Except.ok [],
    queryPhones := fun _ _ => Except.ok [],
    filtered := fun _ => Except.ok [] }

/-- Services whose intent classification throws. -/
def svcFail : Services :=
  { svcTrivial with intentReply := Except.error "boom" }

/-- A history turn carrying the same phone twice. -/
def histDup : List ChatHistoryMessage :=
  [{ role := "assistant", content := "here are two phones",
     phones := some [phoneA, phoneA] }]

/-- A history turn carrying two distinct phones. -/
def histAB : List ChatHistoryMessage :=
  [{ role := "user", content := "best camera phone" },
   { role := "assistant", content := "here are two phones",
     phones := some [phoneA, phoneB] }]

/-! ## Structural facts about `processBody` and `process` -/

/-- Every successful `processBody` outcome carries no `error` and at most
five phones (every constructor site is `phones.slice(0, 5)`, a singleton,
or absent). -/
theorem processBody_ok_shape (svc : Services) (q : String) (f : Filters)
    (h : List ChatHistoryMessage) (r : ChatResponse)
    (hr : processBody svc q f h = Except.ok r) :
    r.error = none ∧
      (r.phones = none ∨ ∃ ps, r.phones = some ps ∧ ps.length ≤ 5) := by
  simp only [processBody] at hr
  repeat' split at hr
  all_goals
    first
    | exact Except.noConfusion hr
    | (injection hr with hr
       subst hr
       refine ⟨rfl, ?_⟩
       first
       | exact Or.inl rfl
       | exact Or.inr ⟨_, rfl, by simp⟩)

/-- C1 (amended, cap half): the returned phone list never exceeds five
elements, on every path including the keyword fallback. -/
theorem c1_phones_length_le_five (svc : Services) (q : String) (f : Filters)
    (h : List ChatHistoryMessage) (ps : List Phone)
    (hps : (process svc q f h).phones = some ps) : ps.length ≤ 5 := by
  unfold process at hps
  cases hpb : processBody svc q f h with
  | ok r =>
    simp only [hpb] at hps
    rcases processBody_ok_shape svc q f h r hpb with ⟨-, hnone | ⟨ps2, hps2, hlen⟩⟩
    · rw [hnone] at hps; cases hps
    · rw [hps2] at hps
      injection hps with hps
      subst hps
      exact hlen
  | error m =>
    simp only [hpb] at hps
    cases hfb : getFallbackResults svc q with
    | ok fps =>
      simp only [hfb] at hps
      by_cases h0 : 0 < fps.length
      · rw [if_pos h0] at hps
        injection hps with hps
        subst hps
        simp only [List.length_take]
        omega
      · rw [if_neg h0] at hps
        cases hps
    | error e2 =>
      simp only [hfb] at hps
      cases hps

/-- Witness for `c1_phones_length_le_five` at a concrete run. -/
theorem c1_phones_length_le_five_witness : ([phoneA, phoneA] : List Phone).length ≤ 5 :=
  c1_phones_length_le_five svcTrivial "tell me more" {} histDup [phoneA, phoneA] (by decide)

/-- C1 counterexample (deduplication half): a follow-up over a history
turn that carries a duplicated phone is passed through `slice(0, 5)` only
— the response contains the same `(company_name, model_name)` pair twice.
(`getUniquePhones` deduplicates only the prompt fed to the generation
service, not the returned array.) -/
theorem c1_dedup_counterexample :
    (process svcTrivial "tell me more" {} histDup).phones = some [phoneA, phoneA] ∧
    ¬ List.Pairwise (fun p q : Phone =>
        ¬(p.company_name = q.company_name ∧ p.model_name = q.model_name))
      [phoneA, phoneA] := by
  refine ⟨by decide, fun hp => ?_⟩
  exact (List.pairwise_cons.mp hp).1 phoneA (by simp) ⟨rfl, rfl⟩

/-- C2: the `error` field of a `process` response is populated only when
the primary pipeline threw *and* the keyword fallback either threw or
found no phones.  (`process` itself is a total function into
`ChatResponse`: by construction no failure of any collaborator escapes
it.) -/
theorem c2_error_only_after_double_failure (svc : Services) (q : String)
    (f : Filters) (h : List ChatHistoryMessage) (e : String)
    (he : (process svc q f h).error = some e) :
    (∃ m, processBody svc q f h = Except.error m) ∧
      (∀ ps, getFallbackResults svc q = Except.ok ps → ps = []) := by
  unfold process at he
  cases hpb : processBody svc q f h with
  | ok r =>
    simp only [hpb] at he
    rcases processBody_ok_shape svc q f h r hpb with ⟨hnone, -⟩
    rw [hnone] at he
    cases he
  | error m =>
    simp only [hpb] at he
    refine ⟨⟨m, rfl⟩, ?_⟩
    intro ps hps
    cases hfb : getFallbackResults svc q with
    | ok fps =>
      simp only [hfb] at he
      rw [hfb] at hps
      injection hps with hps
      subst hps
      by_cases h0 : 0 < fps.length
      · rw [if_pos h0] at he; cases he
      · exact List.eq_nil_of_length_eq_zero (by omega)
    | error e2 => rw [hfb] at hps; cases hps

/-- Witness for `c2_error_only_after_double_failure`: a run whose intent
classification throws and whose fallback finds nothing. -/
theorem c2_error_only_after_double_failure_witness :
    (∃ m, processBody svcFail "hello" {} [] = Except.error m) ∧
      ([] : List Phone) = [] :=
  ⟨(c2_error_only_after_double_failure svcFail "hello" {} [] "boom" (by decide)).1,
   (c2_error_only_after_double_failure svcFail "hello" {} [] "boom" (by decide)).2 [] rfl⟩

/-! ## C3 — follow-up short-circuit -/

/-- If the generation service answers every summary prompt, `summarize`
never throws. -/
theorem summarize_ok (sr : List Phone → Except String String)
    (hs : ∀ ps, ∃ s, sr ps = Except.ok s) (phones : List Phone) :
    ∃ s, summarize sr phones = Except.ok s := by
  unfold summarize
  by_cases hu : (getUniquePhones phones 4).isEmpty
  · exact ⟨noResultsMessage, by simp [hu]⟩
  · obtain ⟨s, hs'⟩ := hs (getUniquePhones phones 4)
    exact ⟨jsTrim s, by simp [hu, hs']⟩

/-- The head of the rating-descending sort is a member of the list and
carries its maximal rating. -/
theorem sortRatingDesc_headI_spec (l : List Phone) (hl : l ≠ []) :
    (sortRatingDesc l).headI ∈ l ∧
      ∀ x ∈ l, x.user_rating ≤ (sortRatingDesc l).headI.user_rating := by
  have hperm : List.Perm (List.insertionSort ratingGE l) l := List.perm_insertionSort ratingGE l
  have hsor : List.Sorted ratingGE (List.insertionSort ratingGE l) :=
    List.sorted_insertionSort ratingGE l
  have hne : sortRatingDesc l ≠ [] := by
    intro h0
    exact hl (List.Perm.eq_nil (by rw [sortRatingDesc] at h0; rw [← h0]; exact hperm.symm))
  obtain ⟨a, t, he⟩ := List.exists_cons_of_ne_nil hne
  rw [sortRatingDesc] at he
  constructor
  · have ha : (sortRatingDesc l).headI ∈ List.insertionSort ratingGE l := by
      rw [sortRatingDesc, he]; simp
    exact hperm.subset ha
  · intro x hx
    have hx2 : x ∈ List.insertionSort ratingGE l := hperm.mem_iff.mpr hx
    rw [he] at hx2 hsor
    rw [sortRatingDesc, he]
    simp only [List.headI_cons]
    rcases List.mem_cons.mp hx2 with hxa | hxt
    · exact le_of_eq (congrArg Phone.user_rating hxa)
    · exact (List.sorted_cons.mp hsor).1 x hxt

/-- The follow-up pre-check, "best" sub-branch, with a successful
summary. -/
theorem process_followup_best (svc : Services) (q : String) (f : Filters)
    (h : List ChatHistoryMessage) (s : String)
    (hf : isFollowUpQuery q = true)
    (hp : getPhonesFromHistory h ≠ [])
    (hb : (isBestPhoneQuery q && decide (1 < (getPhonesFromHistory h).length)) = true)
    (hs : summarize svc.sumReply [(sortRatingDesc (getPhonesFromHistory h)).headI] =
      Except.ok s) :
    process svc q f h =
      { message := s,
        phones := some [(sortRatingDesc (getPhonesFromHistory h)).headI] } := by
  have hlen : 0 < (getPhonesFromHistory h).length := List.length_pos.mpr hp
  have hc : (isFollowUpQuery q && decide (0 < (getPhonesFromHistory h).length)) = true := by
    rw [hf]; simp [hlen]
  have hpb : processBody svc q f h = Except.ok
      { message := s,
        phones := some [(sortRatingDesc (getPhonesFromHistory h)).headI] } := by
    simp only [processBody, hc, hb, if_true, hs]
  simp only [process, hpb]

/-- The follow-up pre-check, pass-through sub-branch, with a successful
summary. -/
theorem process_followup_all (svc : Services) (q : String) (f : Filters)
    (h : List ChatHistoryMessage) (s : String)
    (hf : isFollowUpQuery q = true)
    (hp : getPhonesFromHistory h ≠ [])
    (hb : (isBestPhoneQuery q && decide (1 < (getPhonesFromHistory h).length)) = false)
    (hs : summarize svc.sumReply (getPhonesFromHistory h) = Except.ok s) :
    process svc q f h =
      { message := s,
        phones := some ((getPhonesFromHistory h).take 5) } := by
  have hlen : 0 < (getPhonesFromHistory h).length := List.length_pos.mpr hp
  have hc : (isFollowUpQuery q && decide (0 < (getPhonesFromHistory h).length)) = true := by
    rw [hf]; simp [hlen]
  have hpb : processBody svc q f h = Except.ok
      { message := s,
        phones := some ((getPhonesFromHistory h).take 5) } := by
    simp only [processBody, hc, hb, if_true, Bool.false_eq_true, if_false, hs]
  simp only [process, hpb]

/-- C3: when the message matches the follow-up phrase list and some
history turn carries phones (and the generation service answers), the
retrieval collaborators are never consulted — any services agreeing on
the summary oracle yield the same response — and the response reuses the
phones of the most recent carrying turn: the single highest-rated one if
the message also matches the "best" phrase list and more than one phone
was carried, all of them (capped at 5) otherwise. -/
theorem c3_followup_short_circuit (svc svc2 : Services) (q : String) (f : Filters)
    (h : List ChatHistoryMessage)
    (hf : isFollowUpQuery q = true)
    (hp : getPhonesFromHistory h ≠ [])
    (hs : ∀ ps, ∃ s, svc.sumReply ps = Except.ok s)
    (hsum2 : svc2.sumReply = svc.sumReply) :
    process svc2 q f h = process svc q f h ∧
    ((isBestPhoneQuery q = true ∧ 1 < (getPhonesFromHistory h).length) →
      ∃ p, (process svc q f h).phones = some [p] ∧ p ∈ getPhonesFromHistory h ∧
        ∀ x ∈ getPhonesFromHistory h, x.user_rating ≤ p.user_rating) ∧
    (¬(isBestPhoneQuery q = true ∧ 1 < (getPhonesFromHistory h).length) →
      (process svc q f h).phones = some ((getPhonesFromHistory h).take 5)) := by
  by_cases hb : (isBestPhoneQuery q && decide (1 < (getPhonesFromHistory h).length)) = true
  · obtain ⟨s, hsv⟩ := summarize_ok svc.sumReply hs
      [(sortRatingDesc (getPhonesFromHistory h)).headI]
    have h1 := process_followup_best svc q f h s hf hp hb hsv
    have h2 := process_followup_best svc2 q f h s hf hp hb (by rw [hsum2]; exact hsv)
    have hbp : isBestPhoneQuery q = true ∧
        decide (1 < (getPhonesFromHistory h).length) = true := by
      simpa [Bool.and_eq_true] using hb
    refine ⟨by rw [h1, h2], fun _ => ?_, fun hcon => ?_⟩
    · rcases sortRatingDesc_headI_spec (getPhonesFromHistory h) hp with ⟨hmem, hmax⟩
      exact ⟨(sortRatingDesc (getPhonesFromHistory h)).headI, by rw [h1], hmem, hmax⟩
    · exact absurd ⟨hbp.1, of_decide_eq_true hbp.2⟩ hcon
  · rw [Bool.not_eq_true] at hb
    obtain ⟨s, hsv⟩ := summarize_ok svc.sumReply hs (getPhonesFromHistory h)
    have h1 := process_followup_all svc q f h s hf hp hb hsv
    have h2 := process_followup_all svc2 q f h s hf hp hb (by rw [hsum2]; exact hsv)
    refine ⟨by rw [h1, h2], fun hcon => ?_, fun _ => by rw [h1]⟩
    have hcontra : (isBestPhoneQuery q &&
        decide (1 < (getPhonesFromHistory h).length)) = true := by
      rw [hcon.1]; simp [hcon.2]
    rw [hb] at hcontra
    exact absurd hcontra Bool.false_ne_true

/-- Services sharing `svcTrivial`'s summary oracle but throwing on every
retrieval collaborator. -/
def svcRetrievalJunk : Services :=
  { svcTrivial with
    intentReply := Except.error "x",
    queryPhones := fun _ _ => Except.error "y",
    filtered := fun _ => Except.error "z",
    searchProducts := fun _ _ _ => Except.error "w" }

/-- Witness for `c3_followup_short_circuit` at the history `[A, B]` and
message "tell me more about the first one": broken retrieval services do
not change the response, and the phones are reused from history. -/
theorem c3_followup_short_circuit_witness :
    process svcRetrievalJunk "tell me more about the first one" {} histAB =
        process svcTrivial "tell me more about the first one" {} histAB ∧
      (process svcTrivial "tell me more about the first one" {} histAB).phones =
        some ((getPhonesFromHistory histAB).take 5) :=
  ⟨(c3_followup_short_circuit svcTrivial svcRetrievalJunk
      "tell me more about the first one" {} histAB (by decide) (by decide)
      (fun ps => ⟨"sum", rfl⟩) rfl).1,
   (c3_followup_short_circuit svcTrivial svcRetrievalJunk
      "tell me more about the first one" {} histAB (by decide) (by decide)
      (fun ps => ⟨"sum", rfl⟩) rfl).2.2 (by decide)⟩

/-! ## C4 — filter merging -/

/-- Correct tightening of one `min` bound, with JavaScript truthiness: a
supplied nonzero pair merges to the maximum, an absent-or-zero constraint
leaves the caller's bound, an absent-or-zero caller bound takes the
constraint, and a truthy caller bound is never lowered. -/
def TightenLower (fv cv mv : Option ℚ) : Prop :=
  (truthyNum fv = true ∧ truthyNum cv = true →
    mv = some (max (fv.getD 0) (cv.getD 0))) ∧
  (truthyNum cv = false → mv = fv) ∧
  (truthyNum fv = false ∧ truthyNum cv = true → mv = cv) ∧
  (truthyNum fv = true → fv.getD 0 ≤ mv.getD 0)

/-- Correct tightening of one `max` bound (dual of `TightenLower`): a
truthy caller bound is never raised. -/
def TightenUpper (fv cv mv : Option ℚ) : Prop :=
  (truthyNum fv = true ∧ truthyNum cv = true →
    mv = some (min (fv.getD 0) (cv.getD 0))) ∧
  (truthyNum cv = false → mv = fv) ∧
  (truthyNum fv = false ∧ truthyNum cv = true → mv = cv) ∧
  (truthyNum fv = true → mv.getD 0 ≤ fv.getD 0)

theorem mergeLower_tighten (fv cv : Option ℚ) : TightenLower fv cv (mergeLower cv fv) := by
  unfold TightenLower mergeLower
  by_cases hcv : truthyNum cv = true
  · by_cases hfv : truthyNum fv = true
    · by_cases hlt : fv.getD 0 < cv.getD 0
      · rw [if_pos (by rw [hcv, hfv]; simp [hlt])]
        refine ⟨fun _ => ?_, fun hc => absurd hcv (by rw [hc]; simp), fun hc => absurd hc.1 (by rw [hfv]; simp), fun _ => le_of_lt hlt⟩
        rw [max_eq_right (le_of_lt hlt)]
        cases cv with
        | none => cases hcv
        | some v => rfl
      · rw [if_neg (by rw [hcv, hfv]; simpa using hlt)]
        refine ⟨fun _ => ?_, fun _ => rfl, fun hc => absurd hc.1 (by rw [hfv]; simp), fun _ => le_refl _⟩
        rw [max_eq_left (not_lt.mp hlt)]
        cases fv with
        | none => cases hfv
        | some v => rfl
    · rw [if_pos (by rw [hcv]; simp [hfv])]
      exact ⟨fun hc => absurd hc.1 hfv, fun hc => absurd hcv (by rw [hc]; simp),
        fun _ => rfl, fun hc => absurd hc hfv⟩
  · rw [if_neg (by simp only [Bool.and_eq_true]; exact fun hx => hcv hx.1)]
    exact ⟨fun hc => absurd hc.2 hcv, fun _ => rfl, fun hc => absurd hc.2 hcv,
      fun _ => le_refl _⟩

theorem mergeUpper_tighten (fv cv : Option ℚ) : TightenUpper fv cv (mergeUpper cv fv) := by
  unfold TightenUpper mergeUpper
  by_cases hcv : truthyNum cv = true
  · by_cases hfv : truthyNum fv = true
    · by_cases hlt : cv.getD 0 < fv.getD 0
      · rw [if_pos (by rw [hcv, hfv]; simp [hlt])]
        refine ⟨fun _ => ?_, fun hc => absurd hcv (by rw [hc]; simp), fun hc => absurd hc.1 (by rw [hfv]; simp), fun _ => le_of_lt hlt⟩
        rw [min_eq_right (le_of_lt hlt)]
        cases cv with
        | none => cases hcv
        | some v => rfl
      · rw [if_neg (by rw [hcv, hfv]; simpa using hlt)]
        refine ⟨fun _ => ?_, fun _ => rfl, fun hc => absurd hc.1 (by rw [hfv]; simp), fun _ => le_refl _⟩
        rw [min_eq_left (not_lt.mp hlt)]
        cases fv with
        | none => cases hfv
        | some v => rfl
    · rw [if_pos (by rw [hcv]; simp [hfv])]
      exact ⟨fun hc => absurd hc.1 hfv, fun hc => absurd hcv (by rw [hc]; simp),
        fun _ => rfl, fun hc => absurd hc hfv⟩
  · rw [if_neg (by simp only [Bool.and_eq_true]; exact fun hx => hcv hx.1)]
    exact ⟨fun hc => absurd hc.2 hcv, fun _ => rfl, fun hc => absurd hc.2 hcv,
      fun _ => le_refl _⟩

theorem mergeFilters_minPrice (f : Filters) (intent : ParsedIntent) :
    (mergeFilters f intent).minPrice =
      mergeLower (intent.constraints.getD {}).min_price f.minPrice := by
  simp only [mergeFilters]; split <;> rfl

theorem mergeFilters_maxPrice (f : Filters) (intent : ParsedIntent) :
    (mergeFilters f intent).maxPrice =
      mergeUpper (intent.constraints.getD {}).max_price f.maxPrice := by
  simp only [mergeFilters]; split <;> rfl

theorem mergeFilters_minRam (f : Filters) (intent : ParsedIntent) :
    (mergeFilters f intent).minRam =
      mergeLower (intent.constraints.getD {}).min_ram f.minRam := by
  simp only [mergeFilters]; split <;> rfl

theorem mergeFilters_maxRam (f : Filters) (intent : ParsedIntent) :
    (mergeFilters f intent).maxRam =
      mergeUpper (intent.constraints.getD {}).max_ram f.maxRam := by
  simp only [mergeFilters]; split <;> rfl

theorem mergeFilters_minBattery (f : Filters) (intent : ParsedIntent) :
    (mergeFilters f intent).minBattery =
      mergeLower (intent.constraints.getD {}).min_battery f.minBattery := by
  simp only [mergeFilters]; split <;> rfl

theorem mergeFilters_maxBattery (f : Filters) (intent : ParsedIntent) :
    (mergeFilters f intent).maxBattery =
      mergeUpper (intent.constraints.getD {}).max_battery f.maxBattery := by
  simp only [mergeFilters]; split <;> rfl

theorem mergeFilters_minCamera (f : Filters) (intent : ParsedIntent) :
    (mergeFilters f intent).minCamera =
      mergeLower (intent.constraints.getD {}).min_camera f.minCamera := by
  simp only [mergeFilters]; split <;> rfl

theorem mergeFilters_maxCamera (f : Filters) (intent : ParsedIntent) :
    (mergeFilters f intent).maxCamera =
      mergeUpper (intent.constraints.getD {}).max_camera f.maxCamera := by
  simp only [mergeFilters]; split <;> rfl

theorem mergeFilters_minStorage (f : Filters) (intent : ParsedIntent) :
    (mergeFilters f intent).minStorage =
      mergeLower (intent.constraints.getD {}).min_storage f.minStorage := by
  simp only [mergeFilters]; split <;> rfl

theorem mergeFilters_maxStorage (f : Filters) (intent : ParsedIntent) :
    (mergeFilters f intent).maxStorage =
      mergeUpper (intent.constraints.getD {}).max_storage f.maxStorage := by
  simp only [mergeFilters]; split <;> rfl

/-- C4 (amended): for every caller filter and intent, each numeric bound
is tightened per `TightenLower`/`TightenUpper` — the tighter of two
*truthy* (nonzero) bounds wins, zero and missing values count as absent,
and a truthy caller bound is never widened — and the brand comes from the
intent's first company exactly when the intent names one and the caller's
company is missing or empty. -/
theorem c4_merge_tightening (f : Filters) (intent : ParsedIntent) :
    TightenLower f.minPrice (intent.constraints.getD {}).min_price
      (mergeFilters f intent).minPrice ∧
    TightenUpper f.maxPrice (intent.constraints.getD {}).max_price
      (mergeFilters f intent).maxPrice ∧
    TightenLower f.minRam (intent.constraints.getD {}).min_ram
      (mergeFilters f intent).minRam ∧
    TightenUpper f.maxRam (intent.constraints.getD {}).max_ram
      (mergeFilters f intent).maxRam ∧
    TightenLower f.minBattery (intent.constraints.getD {}).min_battery
      (mergeFilters f intent).minBattery ∧
    TightenUpper f.maxBattery (intent.constraints.getD {}).max_battery
      (mergeFilters f intent).maxBattery ∧
    TightenLower f.minCamera (intent.constraints.getD {}).min_camera
      (mergeFilters f intent).minCamera ∧
    TightenUpper f.maxCamera (intent.constraints.getD {}).max_camera
      (mergeFilters f intent).maxCamera ∧
    TightenLower f.minStorage (intent.constraints.getD {}).min_storage
      (mergeFilters f intent).minStorage ∧
    TightenUpper f.maxStorage (intent.constraints.getD {}).max_storage
      (mergeFilters f intent).maxStorage ∧
    (truthyStr f.company = true → (mergeFilters f intent).company = f.company) ∧
    (truthyStr f.company = false →
      (mergeFilters f intent).company =
        match (intent.entities.bind IntentEntities.company).getD [] with
        | [] => f.company
        | c0 :: _ => some c0) := by
  refine ⟨?_, ?_, ?_, ?_, ?_, ?_, ?_, ?_, ?_, ?_, ?_, ?_⟩
  · rw [mergeFilters_minPrice]; exact mergeLower_tighten _ _
  · rw [mergeFilters_maxPrice]; exact mergeUpper_tighten _ _
  · rw [mergeFilters_minRam]; exact mergeLower_tighten _ _
  · rw [mergeFilters_maxRam]; exact mergeUpper_tighten _ _
  · rw [mergeFilters_minBattery]; exact mergeLower_tighten _ _
  · rw [mergeFilters_maxBattery]; exact mergeUpper_tighten _ _
  · rw [mergeFilters_minCamera]; exact mergeLower_tighten _ _
  · rw [mergeFilters_maxCamera]; exact mergeUpper_tighten _ _
  · rw [mergeFilters_minStorage]; exact mergeLower_tighten _ _
  · rw [mergeFilters_maxStorage]; exact mergeUpper_tighten _ _
  · intro hc
    simp only [mergeFilters]
    rw [if_neg (by rw [hc]; simp)]
  · intro hc
    simp only [mergeFilters]
    cases hl : (intent.entities.bind IntentEntities.company).getD [] with
    | nil => rw [if_neg (by simp)]
    | cons c0 cs => rw [if_pos (by rw [hc]; simp)]; rfl

/-- A caller filter with both price bounds supplied. -/
def filtersW : Filters := { minPrice := some 5, maxPrice := some 20 }

/-- An intent carrying tighter and looser constraints. -/
def intentW : ParsedIntent :=
  { task := IntentTask.query,
    constraints := some { min_price := some 8, max_price := some 30 } }

/-- Witness for `c4_merge_tightening`: both price bounds resolve to the
tighter value at a concrete input. -/
theorem c4_merge_tightening_witness :
    (mergeFilters filtersW intentW).minPrice =
        some (max (filtersW.minPrice.getD 0)
          (((intentW.constraints.getD {}).min_price).getD 0)) ∧
      (mergeFilters filtersW intentW).maxPrice =
        some (min (filtersW.maxPrice.getD 0)
          (((intentW.constraints.getD {}).max_price).getD 0)) :=
  ⟨(c4_merge_tightening filtersW intentW).1.1 ⟨by decide, by decide⟩,
   (c4_merge_tightening filtersW intentW).2.1.1 ⟨by decide, by decide⟩⟩

/-- The caller filter of the C4 counterexample: a zero `maxPrice`. -/
def filtersZero : Filters := { maxPrice := some 0 }

/-- The intent of the C4 counterexample: `max_price` constraint 5. -/
def intentFive : ParsedIntent :=
  { task := IntentTask.query, constraints := some { max_price := some 5 } }

/-- C4 counterexample: with a caller-supplied `maxPrice` of `0` (falsy in
JavaScript) and an intent `max_price` of `5`, the merge yields `5`, not
the minimum `0` of the two max-bounds — the bound present in the caller's
filters is widened. -/
theorem c4_zero_bound_counterexample :
    filtersZero.maxPrice = some 0 ∧
    (mergeFilters filtersZero intentFive).maxPrice = some 5 ∧
    (mergeFilters filtersZero intentFive).maxPrice ≠
      some (min (0 : ℚ) 5) ∧
    ¬((5 : ℚ) ≤ 0) := by
  refine ⟨rfl, by decide, by decide, by decide⟩

/-! ## C5 — keyword fallback -/

/-- Modelled from the spec: the claimed price pattern
`\d{1,3}[kK]` — its character class holds only `k` and `K`, without the
comma the source's class `[k,K]` also accepts. -/
def specAlt1At (l : List Char) : Option ℕ :=
  let ds := l.takeWhile Char.isDigit
  if 1 ≤ ds.length ∧ ds.length ≤ 3 then
    match l.drop ds.length with
    | c :: _ => if c = 'k' ∨ c = 'K' then some (parseDigits ds) else none
    | [] => none
  else none

/-- Modelled from the spec: the price figure under the claimed pattern
(`\d{1,3}[kK]` or a 4-to-6-digit number). -/
def specPriceScan : List Char → Option ℕ
  | [] => none
  | c :: rest =>
    match specAlt1At (c :: rest) with
    | some n => some (n * 1000)
    | none =>
      match alt2At (c :: rest) with
      | some n => some n
      | none => specPriceScan rest

/-- C5 counterexample: on "spend 25, maybe" the claimed pattern finds no
price figure (no `k`/`K` suffix, no 4-digit run), yet the code's class
`[k,K]` accepts the comma after `25` and builds the ±10,000 window —
the built `Filters` differ from what the claim prescribes. -/
theorem c5_comma_class_counterexample :
    specPriceScan "spend 25, maybe".data = none ∧
    (extractFallbackFilters "spend 25, maybe").maxPrice = some 35000 ∧
    (extractFallbackFilters "spend 25, maybe").minPrice = some 15000 := by
  refine ⟨by decide, by decide, by decide⟩

/-- C5 (amended): the concrete example holds
(`"best samsung phone under 20k"` gives exactly
`{maxPrice: 20000, company: "samsung"}`); in general the price figure is
taken from the pattern `\d{1,3}[kK,]` (the source's character class
contains a comma) or a 4-to-6-digit number, an `under`/`below` word makes
it the max bound, otherwise `above`/`over` makes it the min bound,
otherwise a ±10,000 window is used; and fallback results are at most 8,
sorted by rating descending. -/
theorem c5_fallback_filters :
    (extractFallbackFilters "best samsung phone under 20k" =
      { maxPrice := some 20000, company := some "samsung" }) ∧
    (∀ (q : String) (v : ℕ), priceScan q.data = some v →
      (jsIncludes (lowerStr q) "under" || jsIncludes (lowerStr q) "below") = true →
      (extractFallbackFilters q).maxPrice = some (v : ℚ) ∧
        (extractFallbackFilters q).minPrice = none) ∧
    (∀ (q : String) (v : ℕ), priceScan q.data = some v →
      (jsIncludes (lowerStr q) "under" || jsIncludes (lowerStr q) "below") = false →
      (jsIncludes (lowerStr q) "above" || jsIncludes (lowerStr q) "over") = true →
      (extractFallbackFilters q).minPrice = some (v : ℚ) ∧
        (extractFallbackFilters q).maxPrice = none) ∧
    (∀ (q : String) (v : ℕ), priceScan q.data = some v →
      (jsIncludes (lowerStr q) "under" || jsIncludes (lowerStr q) "below") = false →
      (jsIncludes (lowerStr q) "above" || jsIncludes (lowerStr q) "over") = false →
      (extractFallbackFilters q).maxPrice = some ((v + 10000 : ℕ) : ℚ) ∧
        (extractFallbackFilters q).minPrice = some ((v - 10000 : ℕ) : ℚ)) ∧
    (∀ (svc : Services) (q : String) (ps : List Phone),
      getFallbackResults svc q = Except.ok ps →
      ps.length ≤ 8 ∧ List.Pairwise ratingGE ps) := by
  refine ⟨by decide, ?_, ?_, ?_, ?_⟩
  · intro q v hv hdir
    unfold extractFallbackFilters
    simp only [hv]
    rcases Bool.or_eq_true_iff.mp hdir with h1 | h1
    · rw [h1]; simp
    · rw [h1]; simp
  · intro q v hv hdir1 hdir2
    unfold extractFallbackFilters
    simp only [hv]
    have h1 := Bool.or_eq_false_iff.mp hdir1
    rw [h1.1, h1.2]
    rcases Bool.or_eq_true_iff.mp hdir2 with h2 | h2
    · rw [h2]; simp
    · rw [h2]; simp
  · intro q v hv hdir1 hdir2
    unfold extractFallbackFilters
    simp only [hv]
    have h1 := Bool.or_eq_false_iff.mp hdir1
    have h2 := Bool.or_eq_false_iff.mp hdir2
    rw [h1.1, h1.2, h2.1, h2.2]
    simp
  · intro svc q ps hps
    unfold getFallbackResults at hps
    cases hfb : svc.filtered (extractFallbackFilters q) with
    | ok phones =>
      rw [hfb] at hps
      injection hps with hps
      subst hps
      constructor
      · simp only [List.length_take]; omega
      · exact List.Pairwise.sublist (List.take_sublist 8 _)
          (List.sorted_insertionSort ratingGE phones)
    | error e => rw [hfb] at hps; cases hps

/-- Services whose catalog query returns two rows (out of order). -/
def svcTwoRows : Services :=
  { svcTrivial with filtered := fun _ => Except.ok [phoneB, phoneA] }

/-- Witness for `c5_fallback_filters`, instantiating each universally
quantified conjunct at a concrete input. -/
theorem c5_fallback_filters_witness :
    ((extractFallbackFilters "under 20k").maxPrice = some ((20000 : ℕ) : ℚ) ∧
      (extractFallbackFilters "under 20k").minPrice = none) ∧
    ((extractFallbackFilters "over 20k").minPrice = some ((20000 : ℕ) : ℚ) ∧
      (extractFallbackFilters "over 20k").maxPrice = none) ∧
    ((extractFallbackFilters "a 20k phone").maxPrice = some ((30000 : ℕ) : ℚ) ∧
      (extractFallbackFilters "a 20k phone").minPrice = some ((10000 : ℕ) : ℚ)) ∧
    (([phoneA, phoneB] : List Phone).length ≤ 8 ∧
      List.Pairwise ratingGE [phoneA, phoneB]) :=
  ⟨c5_fallback_filters.2.1 "under 20k" 20000 (by decide) (by decide),
   c5_fallback_filters.2.2.1 "over 20k" 20000 (by decide) (by decide) (by decide),
   by
     have h := c5_fallback_filters.2.2.2.1 "a 20k phone" 20000 (by decide) (by decide) (by decide)
     exact h,
   c5_fallback_filters.2.2.2.2 svcTwoRows "anything" [phoneA, phoneB] rfl⟩

/-! ## C6 — filtered retrieval -/

/-- Unpacking of the `WHERE` clause: a row passing `matchesFilters`
satisfies every supplied bound. -/
theorem matchesFilters_spec (f : Filters) (p : Phone)
    (hm : matchesFilters f p = true) :
    (∀ co, f.company = some co → lowerStr p.company_name = lowerStr co) ∧
    (∀ v, f.minPrice = some v → v ≤ p.price_inr) ∧
    (∀ v, f.maxPrice = some v → p.price_inr ≤ v) ∧
    (∀ v, f.minCamera = some v → v ≤ p.back_camera_mp) ∧
    (∀ v, f.maxCamera = some v → p.back_camera_mp ≤ v) ∧
    (∀ v, f.minBattery = some v → v ≤ p.battery_mah) ∧
    (∀ v, f.maxBattery = some v → p.battery_mah ≤ v) ∧
    (∀ v, f.minRam = some v → v ≤ p.ram_gb) ∧
    (∀ v, f.maxRam = some v → p.ram_gb ≤ v) ∧
    (∀ v, f.minStorage = some v → v ≤ p.memory_gb) ∧
    (∀ v, f.maxStorage = some v → p.memory_gb ≤ v) := by
  unfold matchesFilters at hm
  simp only [Bool.and_eq_true] at hm
  obtain ⟨⟨⟨⟨⟨⟨⟨⟨⟨⟨h1, h2⟩, h3⟩, h4⟩, h5⟩, h6⟩, h7⟩, h8⟩, h9⟩, h10⟩, h11⟩ := hm
  refine ⟨?_, ?_, ?_, ?_, ?_, ?_, ?_, ?_, ?_, ?_, ?_⟩ <;> intro v hv
  · rw [hv] at h1; simpa using h1
  · rw [hv] at h2; simpa using h2
  · rw [hv] at h3; simpa using h3
  · rw [hv] at h4; simpa using h4
  · rw [hv] at h5; simpa using h5
  · rw [hv] at h6; simpa using h6
  · rw [hv] at h7; simpa using h7
  · rw [hv] at h8; simpa using h8
  · rw [hv] at h9; simpa using h9
  · rw [hv] at h10; simpa using h10
  · rw [hv] at h11; simpa using h11

/-- C6: every phone returned by `getFilteredPhones` comes from the catalog
and satisfies every supplied bound (brand case-insensitively); the result
is pairwise ordered by rating descending then price ascending, and has at
most 50 rows. -/
theorem c6_filtered_phones_sound (catalog : List Phone) (f : Filters) :
    (∀ p ∈ getFilteredPhones catalog f,
      p ∈ catalog ∧
      (∀ co, f.company = some co → lowerStr p.company_name = lowerStr co) ∧
      (∀ v, f.minPrice = some v → v ≤ p.price_inr) ∧
      (∀ v, f.maxPrice = some v → p.price_inr ≤ v) ∧
      (∀ v, f.minCamera = some v → v ≤ p.back_camera_mp) ∧
      (∀ v, f.maxCamera = some v → p.back_camera_mp ≤ v) ∧
      (∀ v, f.minBattery = some v → v ≤ p.battery_mah) ∧
      (∀ v, f.maxBattery = some v → p.battery_mah ≤ v) ∧
      (∀ v, f.minRam = some v → v ≤ p.ram_gb) ∧
      (∀ v, f.maxRam = some v → p.ram_gb ≤ v) ∧
      (∀ v, f.minStorage = some v → v ≤ p.memory_gb) ∧
      (∀ v, f.maxStorage = some v → p.memory_gb ≤ v)) ∧
    List.Pairwise lexOrder (getFilteredPhones catalog f) ∧
    (getFilteredPhones catalog f).length ≤ 50 := by
  refine ⟨?_, ?_, ?_⟩
  · intro p hp
    have hp2 : p ∈ List.insertionSort lexOrder (catalog.filter (matchesFilters f)) :=
      List.mem_of_mem_take (by simpa [getFilteredPhones] using hp)
    have hp3 : p ∈ catalog.filter (matchesFilters f) :=
      (List.perm_insertionSort lexOrder _).subset hp2
    have hmem := List.mem_of_mem_filter hp3
    have hmf := List.of_mem_filter hp3
    exact ⟨hmem, matchesFilters_spec f p hmf⟩
  · exact List.Pairwise.sublist (List.take_sublist 50 _)
      (List.sorted_insertionSort lexOrder _)
  · simp only [getFilteredPhones, List.length_take]
    omega

/-- Witness for `c6_filtered_phones_sound`: a two-row catalog with a
minimum-price filter keeping only the expensive row. -/
theorem c6_filtered_phones_sound_witness :
    phoneB ∈ [phoneA, phoneB] ∧
      lowerStr phoneB.company_name = lowerStr "APPLE" ∧
      (65000 : ℚ) ≤ phoneB.price_inr :=
  have h := (c6_filtered_phones_sound [phoneA, phoneB]
    { company := some "APPLE", minPrice := some 65000 }).1 phoneB (by decide)
  ⟨h.1, h.2.1 "APPLE" rfl, h.2.2.1 65000 rfl⟩

/-! ## C8 — Fallback Matcher similarity -/

/-- Reduction of `stringSimilarity` to the claimed closed form, for
non-degenerate inputs: the `longer/shorter` shuffle is absorbed by the
symmetry of the distance routine. -/
theorem stringSimilarity_div (a b : String) (h : 0 < max a.data.length b.data.length) :
    stringSimilarity a b =
      (((max a.data.length b.data.length : ℕ) : ℚ) - (levenshteinDistance a b : ℚ)) /
        ((max a.data.length b.data.length : ℕ) : ℚ) := by
  unfold stringSimilarity
  by_cases hgt : a.data.length > b.data.length
  · rw [if_pos hgt, if_pos hgt]
    dsimp only
    rw [Nat.max_eq_left (le_of_lt hgt)]
    rw [if_neg (by omega)]
  · rw [if_neg hgt, if_neg hgt]
    dsimp only
    have hle : a.data.length ≤ b.data.length := not_lt.mp hgt
    rw [Nat.max_eq_right hle]
    rw [if_neg (by omega)]
    rw [levenshteinDistance_symm b a]

/-- C8 (amended): for non-empty inputs the similarity is exactly
`(max_len − levenshtein(a, b)) / max_len`; identical strings (empty ones
included) score exactly 1; equal-length non-empty strings sharing no
character score exactly 0. -/
theorem c8_similarity_formula :
    (∀ a b : String, 0 < max a.data.length b.data.length →
      stringSimilarity a b =
        (((max a.data.length b.data.length : ℕ) : ℚ) - (levenshteinDistance a b : ℚ)) /
          ((max a.data.length b.data.length : ℕ) : ℚ)) ∧
    (∀ a : String, stringSimilarity a a = 1) ∧
    (∀ a b : String, a.data.length = b.data.length → 0 < a.data.length →
      (∀ c ∈ a.data, c ∉ b.data) → stringSimilarity a b = 0) := by
  refine ⟨stringSimilarity_div, ?_, ?_⟩
  · intro a
    by_cases h0 : a.data.length = 0
    · unfold stringSimilarity
      simp [h0]
    · rw [stringSimilarity_div a a (by omega)]
      have hd : levenshteinDistance a a = 0 := by
        rw [levenshteinDistance_eq, levRec_self]
      rw [hd, max_self]
      rw [Nat.cast_zero, sub_zero]
      exact div_self (by exact_mod_cast h0)
  · intro a b hlen h0 hdisj
    rw [stringSimilarity_div a b (by omega)]
    have hd : levenshteinDistance a b = max a.data.length b.data.length := by
      rw [levenshteinDistance_eq, levRec_disjoint]
      · simp
      · intro c hc hc2
        exact hdisj c (by simpa using hc) (by simpa using hc2)
    rw [hd]
    simp

/-- Witness for `c8_similarity_formula`, instantiating each conjunct. -/
theorem c8_similarity_formula_witness :
    stringSimilarity "galxy" "galaxy" =
      (((max "galxy".data.length "galaxy".data.length : ℕ) : ℚ) -
          (levenshteinDistance "galxy" "galaxy" : ℚ)) /
        ((max "galxy".data.length "galaxy".data.length : ℕ) : ℚ) ∧
    stringSimilarity "pixel" "pixel" = 1 ∧
    stringSimilarity "abc" "xyz" = 0 :=
  ⟨c8_similarity_formula.1 "galxy" "galaxy" (by decide),
   c8_similarity_formula.2.1 "pixel",
   c8_similarity_formula.2.2 "abc" "xyz" rfl (by decide) (by decide)⟩

/-- C8 counterexample: `"abc"` and `"bca"` have equal length and differ
in every position, yet the edit distance is 2 (delete the leading `a`,
append it), so the similarity is `1/3`, not `0`. -/
theorem c8_positionwise_counterexample :
    ("abc".data.length = "bca".data.length) ∧
    (("abc".data.zip "bca".data).all fun p => p.1 != p.2) = true ∧
    levenshteinDistance "abc" "bca" = 2 ∧
    stringSimilarity "abc" "bca" = 1 / 3 ∧
    (1 / 3 : ℚ) ≠ 0 := by
  refine ⟨rfl, by decide, by decide, ?_, by norm_num⟩
  rw [stringSimilarity_div "abc" "bca" (by decide)]
  have h1 : max "abc".data.length "bca".data.length = 3 := by decide
  have h2 : levenshteinDistance "abc" "bca" = 2 := by decide
  rw [h1, h2]
  norm_num

/-! ## C7 — typo-correction threshold -/

/-- The per-token decision of `applyCorrections`: the top match's value
when `similar.length > 0 && similar[0].score > 0.7`, the original token
otherwise. -/
def tokenCorrection (find : String → String → Except String (List VectorSearchResult))
    (kind tok : String) : String :=
  match find tok kind with
  | Except.ok (top :: _) => if ratPoint7 < top.score then top.metadata.value else tok
  | _ => tok

theorem correctTokens_map (find : String → String → Except String (List VectorSearchResult))
    (kind : String) : ∀ toks : List String,
    (∀ t ∈ toks, ∃ rs, find t kind = Except.ok rs) →
    correctTokens find kind toks = Except.ok (toks.map (tokenCorrection find kind)) := by
  intro toks
  induction toks with
  | nil => intro _; rfl
  | cons tok rest ih =>
    intro hok
    obtain ⟨rs, hrs⟩ := hok tok (by simp)
    have hrest := ih (fun t ht => hok t (by simp [ht]))
    unfold correctTokens
    rw [hrs, hrest]
    simp only [List.map, tokenCorrection, hrs]
    cases rs with
    | nil => rfl
    | cons top more => rfl

theorem correctTokens_length (find : String → String → Except String (List VectorSearchResult))
    (kind : String) : ∀ (toks res : List String),
    correctTokens find kind toks = Except.ok res → res.length = toks.length := by
  intro toks
  induction toks with
  | nil =>
    intro res hres
    unfold correctTokens at hres
    injection hres with hres
    rw [← hres]
  | cons tok rest ih =>
    intro res hres
    unfold correctTokens at hres
    cases hfind : find tok kind with
    | error e => rw [hfind] at hres; cases hres
    | ok similar =>
      rw [hfind] at hres
      cases hrec : correctTokens find kind rest with
      | error e => rw [hrec] at hres; cases hres
      | ok others =>
        rw [hrec] at hres
        injection hres with hres
        rw [← hres]
        simp [ih others hrec]

/-- C7 (amended): a token is replaced by the top match exactly when the
match list is non-empty and its top score is *strictly greater than* 0.7;
otherwise it is kept; and `applyCorrections` never drops a token — the
corrected entity lists have the lengths of the originals. -/
theorem c7_correction_threshold :
    (∀ (find : String → String → Except String (List VectorSearchResult)) (kind : String)
        (toks : List String),
      (∀ t ∈ toks, ∃ rs, find t kind = Except.ok rs) →
      correctTokens find kind toks = Except.ok (toks.map (tokenCorrection find kind))) ∧
    (∀ find kind (tok : String) (top : VectorSearchResult) (rest : List VectorSearchResult),
      find tok kind = Except.ok (top :: rest) →
      (ratPoint7 < top.score → tokenCorrection find kind tok = top.metadata.value) ∧
      (top.score ≤ ratPoint7 → tokenCorrection find kind tok = tok)) ∧
    (∀ find kind (tok : String), find tok kind = Except.ok [] →
      tokenCorrection find kind tok = tok) ∧
    (∀ find (intent out : ParsedIntent), applyCorrections find intent = Except.ok out →
      (out.entities.bind IntentEntities.company).map List.length =
          (intent.entities.bind IntentEntities.company).map List.length ∧
        (out.entities.bind IntentEntities.model).map List.length =
          (intent.entities.bind IntentEntities.model).map List.length) := by
  refine ⟨correctTokens_map, ?_, ?_, ?_⟩
  · intro find kind tok top rest hfind
    constructor
    · intro hlt
      unfold tokenCorrection
      rw [hfind]
      simp [hlt]
    · intro hle
      unfold tokenCorrection
      rw [hfind]
      simp [not_lt_of_le hle]
  · intro find kind tok hfind
    unfold tokenCorrection
    rw [hfind]
  · intro find intent out hout
    unfold applyCorrections applyCorrectionsModels at hout
    cases he : intent.entities with
    | none =>
      simp only [he, Option.none_bind] at hout
      injection hout with hout
      subst hout
      exact ⟨by rw [he], by rw [he]⟩
    | some e =>
      simp only [he, Option.some_bind, Option.getD_some] at hout
      cases hco : e.company with
      | none =>
        simp only [hco] at hout
        cases hmo : e.model with
        | none =>
          simp only [hmo] at hout
          injection hout with hout
          subst hout
          exact ⟨by rw [he], by rw [he]⟩
        | some models =>
          simp only [hmo] at hout
          cases hct : correctTokens find "model" models with
          | error e2 => simp only [hct] at hout; cases hout
          | ok ms =>
            simp only [hct] at hout
            injection hout with hout
            subst hout
            have hmlen := correctTokens_length find "model" models ms hct
            constructor
            · simp [he, hco]
            · simp [he, hmo, hmlen]
      | some companies =>
        simp only [hco] at hout
        cases hcc : correctTokens find "company" companies with
        | error e2 => simp only [hcc] at hout; cases hout
        | ok cs =>
          simp only [hcc, Option.some_bind, Option.getD_some] at hout
          have hclen := correctTokens_length find "company" companies cs hcc
          cases hmo : e.model with
          | none =>
            simp only [hmo] at hout
            injection hout with hout
            subst hout
            constructor
            · simp [he, hco, hclen]
            · simp [he, hmo]
          | some models =>
            simp only [hmo] at hout
            cases hct : correctTokens find "model" models with
            | error e2 => simp only [hct] at hout; cases hout
            | ok ms =>
              simp only [hct] at hout
              injection hout with hout
              subst hout
              have hmlen := correctTokens_length find "model" models ms hct
              constructor
              · simp [he, hco, hclen]
              · simp [he, hmo, hmlen]

/-- Witness for `c7_correction_threshold`: a two-token list with one score
above and one below the threshold, and the length-preservation fact at a
concrete intent. -/
def vsrHigh : VectorSearchResult :=
  { id := "company-samsung", score := 1,
    metadata := { type := "company", value := "samsung" } }

def vsrLow : VectorSearchResult :=
  { id := "company-oppo", score := ratPoint5,
    metadata := { type := "company", value := "oppo" } }

theorem c7_correction_threshold_witness :
    tokenCorrection (fun _ _ => Except.ok [vsrHigh]) "company" "samsng" = "samsung" ∧
    tokenCorrection (fun _ _ => Except.ok [vsrLow]) "company" "opo" = "opo" :=
  ⟨(c7_correction_threshold.2.1 _ "company" "samsng" vsrHigh [] rfl).1
      (by show ratPoint7 < vsrHigh.score; rw [ratPoint7_eq]; norm_num [vsrHigh]),
   (c7_correction_threshold.2.1 _ "company" "opo" vsrLow [] rfl).2
      (by show vsrLow.score ≤ ratPoint7; rw [show vsrLow.score = ratPoint5 from rfl, ratPoint5_eq, ratPoint7_eq]; norm_num)⟩

/-- A similarity score of exactly `0.7` is produced by the Fallback
Matcher itself: a 7-character query against a 10-character company at
distance 3. -/
theorem stringSimilarity_07 : stringSimilarity "abcdefg" "abcdefghij" = ratPoint7 := by
  rw [stringSimilarity_div "abcdefg" "abcdefghij" (by decide)]
  have h1 : max "abcdefg".data.length "abcdefghij".data.length = 10 := by decide
  have h2 : levenshteinDistance "abcdefg" "abcdefghij" = 3 := by decide
  rw [h1, h2, ratPoint7_eq]
  norm_num

def vsr07 : VectorSearchResult :=
  { id := "company-abcdefghij", score := ratPoint7,
    metadata := { type := "company", value := "abcdefghij" } }

theorem fallbackCompanyResults_c7 :
    fallbackCompanyResults ["abcdefghij"] (lowerStr "abcdefg") = [vsr07] := by
  have hql : lowerStr "abcdefg" = "abcdefg" := by decide
  have hcl : lowerStr "abcdefghij" = "abcdefghij" := by decide
  unfold fallbackCompanyResults
  rw [hql]
  simp only [List.filter_cons, List.filter_nil, hcl, stringSimilarity_07,
    decide_eq_true_eq]
  rw [if_pos (by rw [ratPoint5_eq, ratPoint7_eq]; norm_num)]
  simp [hcl, stringSimilarity_07, vsr07]

theorem fallbackSimilar_c7 :
    fallbackSimilar ["abcdefghij"] [] "abcdefg" (some "company") = [vsr07] := by
  unfold fallbackSimilar
  dsimp only
  rw [if_pos (Or.inr rfl), if_neg (by simp), fallbackCompanyResults_c7]
  simp [List.insertionSort, List.orderedInsert]

/-- The Fallback Matcher as the similarity service (the no-Pinecone-key
configuration), over the single known company "abcdefghij" and an empty
catalog. -/
def find7 : String → String → Except String (List VectorSearchResult) :=
  fun tok ty => Except.ok (fallbackSimilar ["abcdefghij"] [] tok (some ty))

/-- An intent naming the company token "abcdefg". -/
def intentTypo : ParsedIntent :=
  { task := IntentTask.query, entities := some { company := some ["abcdefg"] } }

/-- C7 counterexample: the Fallback Matcher scores the token "abcdefg"
against the known company "abcdefghij" at exactly `0.7`; the claim
("replace exactly when the score is at least 0.7") demands the
replacement, but `applyCorrections` (whose test is `score > 0.7`,
strict) keeps the original token. -/
theorem c7_equal_threshold_counterexample :
    find7 "abcdefg" "company" = Except.ok [vsr07] ∧
    ratPoint7 = 7 / 10 ∧
    applyCorrections find7 intentTypo = Except.ok intentTypo ∧
    intentTypo.entities.bind IntentEntities.company = some ["abcdefg"] ∧
    "abcdefg" ≠ "abcdefghij" := by
  have hct : correctTokens find7 "company" ["abcdefg"] = Except.ok ["abcdefg"] := by
    simp only [correctTokens, find7, fallbackSimilar_c7]
    rw [if_neg (show ¬ratPoint7 < vsr07.score from lt_irrefl _)]
  refine ⟨?_, ratPoint7_eq, ?_, rfl, by decide⟩
  · show Except.ok (fallbackSimilar ["abcdefghij"] [] "abcdefg" (some "company")) = _
    rw [fallbackSimilar_c7]
  · unfold applyCorrections applyCorrectionsModels
    simp only [show intentTypo.entities.bind IntentEntities.company = some ["abcdefg"]
      from rfl, hct]
    rfl

/-! ## C9 — intent parse failure -/

/-- C9: when the generation reply (after the markdown-fence strip) is not
parseable as JSON, `parseIntent` returns the safe default intent
`{task: query, entities: {}, constraints: {}, comparison_type: single}`
— the parse failure is recovered locally as an `Except.ok`, never
propagated. -/
theorem c9_parse_failure_default (reply : String)
    (jsonParse : String → Option ParsedIntent)
    (hfail : jsonParse (cleanIntentReply reply) = none) :
    parseIntent (Except.ok reply) jsonParse = Except.ok defaultIntent := by
  unfold parseIntent
  dsimp only
  rw [hfail]

/-- Witness for `c9_parse_failure_default` on an unparseable reply. -/
theorem c9_parse_failure_default_witness :
    parseIntent (Except.ok "```json\nnot json at all\n```") (fun _ => none) =
      Except.ok defaultIntent :=
  c9_parse_failure_default "```json\nnot json at all\n```" (fun _ => none) rfl

/-! ## C10 — generated SQL -/

/-- Modelled from the spec: the numeric cap of the first `LIMIT` clause of
a statement — the digits following the first occurrence of "LIMIT ". -/
def limitNumber : List Char → Option ℕ
  | [] => none
  | c :: rest =>
    if "LIMIT ".data.isPrefixOf (c :: rest) then
      let ds := ((c :: rest).drop 6).takeWhile Char.isDigit
      if ds.isEmpty then limitNumber rest else some (parseDigits ds)
    else limitNumber rest

/-- C10 (amended): `generateSQL` throws exactly when the cleaned reply
does not begin with `SELECT` (case-insensitively); otherwise it returns
the cleaned reply with " LIMIT 5" appended when no `LIMIT` substring is
present (case-insensitively) — so every returned statement contains
`LIMIT`, but no numeric cap (and in particular no cap of 10) is enforced
on a `LIMIT` clause that was already present, and nothing beyond the
leading keyword is validated. -/
theorem c10_generateSQL_shape (reply : String) :
    ((∃ e, generateSQL (Except.ok reply) = Except.error e) ↔
      startsWithS (upperStr (cleanSQLReply reply)) "SELECT" = false) ∧
    (∀ s, generateSQL (Except.ok reply) = Except.ok s →
      jsIncludes (upperStr s) "LIMIT" = true ∧
      (s = cleanSQLReply reply ∨ s = cleanSQLReply reply ++ " LIMIT 5")) := by
  constructor
  · constructor
    · rintro ⟨e, he⟩
      unfold generateSQL at he
      dsimp only at he
      by_cases hsel : startsWithS (upperStr (cleanSQLReply reply)) "SELECT" = true
      · rw [if_neg (by simp [hsel])] at he
        split at he <;> cases he
      · simpa using hsel
    · intro hsel
      refine ⟨"Invalid SQL: Only SELECT statements allowed", ?_⟩
      unfold generateSQL
      dsimp only
      rw [if_pos (by simp [hsel])]
  · intro s hs
    unfold generateSQL at hs
    dsimp only at hs
    by_cases hsel : startsWithS (upperStr (cleanSQLReply reply)) "SELECT" = true
    · rw [if_neg (by simp [hsel])] at hs
      by_cases hlim : jsIncludes (upperStr (cleanSQLReply reply)) "LIMIT" = true
      · rw [if_neg (by simp [hlim])] at hs
        injection hs with hs
        subst hs
        exact ⟨hlim, Or.inl rfl⟩
      · rw [if_pos (by simp at hlim ⊢; exact hlim)] at hs
        injection hs with hs
        subst hs
        constructor
        · unfold jsIncludes upperStr
          have happ : (cleanSQLReply reply ++ " LIMIT 5").data =
              (cleanSQLReply reply).data ++ " LIMIT 5".data := by
            simp [String.data_append]
          rw [happ, List.map_append]
          exact listContains_append_right _ _ _ (by decide)
        · exact Or.inr rfl
    · rw [if_pos (by simp [hsel])] at hs
      cases hs

/-- Witness for `c10_generateSQL_shape`: a non-SELECT reply throws and a
SELECT reply without a cap gets " LIMIT 5" appended. -/
theorem c10_generateSQL_shape_witness :
    ((∃ e, generateSQL (Except.ok "DROP TABLE phones") = Except.error e) ↔
      startsWithS (upperStr (cleanSQLReply "DROP TABLE phones")) "SELECT" = false) ∧
    (jsIncludes (upperStr "select * from phones LIMIT 5") "LIMIT" = true ∧
      ("select * from phones LIMIT 5" = cleanSQLReply "select * from phones" ∨
        "select * from phones LIMIT 5" =
          cleanSQLReply "select * from phones" ++ " LIMIT 5")) :=
  ⟨(c10_generateSQL_shape "DROP TABLE phones").1,
   (c10_generateSQL_shape "select * from phones").2 "select * from phones LIMIT 5" rfl⟩

/-- C10 counterexample: the generation text
`"SELECT * FROM phones LIMIT 100"` passes through unchanged — its only
`LIMIT` clause allows 100 rows, so no ≤10 cap is enforced. -/
theorem c10_limit_cap_counterexample :
    generateSQL (Except.ok "SELECT * FROM phones LIMIT 100") =
      Except.ok "SELECT * FROM phones LIMIT 100" ∧
    limitNumber "SELECT * FROM phones LIMIT 100".data = some 100 ∧
    ¬(100 ≤ 10) := by
  exact ⟨rfl, by decide, by decide⟩

end MobiAdvisor
